import Mathlib

/-! MERN Task Manager: status derivation, sanitisation and the task service

A shallow embedding of

* `frontend/src/utils/index.js` (`getDisplayStatus`, `isOverdue`, `validatePdfFile`,
  `formatFileSize`),
* `frontend/src/hooks/useTaskManager.js` (`handleCreate`, `handleUpdate`,
  `handleMarkAsDone`),
* `frontend/src/components/TaskModal.jsx` (`validate`, the fields of `handleSubmit`),
* `backend/models/task.model.js` (the `Task` schema and its `displayStatus` virtual),
* `backend/services/task.service.js` (`sanitizeTask`, `getAllTasks`, `getTaskById`,
  `getTaskFile`, `createTask`, `updateTask`, `markAsDone`, `deleteTask`),
* `backend/middleware/upload.js` (`fileFilter`, `upload`),
* `backend/controllers/task.controller.js` (`getTaskById`, `createTask`, `updateTask`),
* `backend/routes/task.routes.js` (the routes `POST /` and `PUT /:id`),
* `backend/index.js` (the centralised error handler).

Conventions.  A JavaScript `Date` is its time value in milliseconds, `none` standing for
`Invalid Date`; the clock (`new Date()`) is an explicit argument `now`; the collection is
an explicit list of documents that the operations read and return; the multipart parser's
reading of the media type that a file part declares is an explicit argument `mimeOf`.
-/

set_option autoImplicit false

namespace TaskManager

/-! ## Dates -/

/-- A JavaScript `Date`: `some t` is the instant `t` (ms since the epoch), `none` is
`Invalid Date` (time value `NaN`). -/
abbrev JsDate := Option Int

/-- The relational operator `a > b` on two dates: both are converted to their time
values, and any comparison with `NaN` is `false`. -/
def JsDate.gt : JsDate → JsDate → Bool
  | some x, some y => decide (x > y)
  | _, _ => false

/-- The operator `a >= b` on two dates (`false` when either is invalid). -/
def JsDate.ge : JsDate → JsDate → Bool
  | some x, some y => decide (x ≥ y)
  | _, _ => false

/-- The operator `a <= b` on two dates (`false` when either is invalid). -/
def JsDate.le : JsDate → JsDate → Bool
  | some x, some y => decide (x ≤ y)
  | _, _ => false

/-- The operator `a < b` on two dates (`false` when either is invalid). -/
def JsDate.lt : JsDate → JsDate → Bool
  | some x, some y => decide (x < y)
  | _, _ => false

/-! ## Status derivation -/

/-- Client side, `frontend/src/utils/index.js`, `getDisplayStatus`.
`status` is `task.status`, `deadline` is `new Date(task.deadline)`, `now` is `new Date()`. -/
def getDisplayStatus (now : Int) (status : String) (deadline : JsDate) : String :=
  if status = "DONE" ∧ JsDate.gt (some now) deadline = true then "Achieved"
  else if status = "DONE" ∧ JsDate.le (some now) deadline = true then "Done"
  else if status ≠ "DONE" ∧ JsDate.ge (some now) deadline = true then "Failed"
  else "In Progress"

/-- Server side, `backend/models/task.model.js`, the getter of the virtual
`displayStatus`.  `status` is `this.status`, `deadline` is `new Date(this.deadline)`. -/
def displayStatus (now : Int) (status : String) (deadline : JsDate) : String :=
  if status = "DONE" ∧ JsDate.gt (some now) deadline = true then "Achieved"
  else if status ≠ "DONE" ∧ JsDate.ge (some now) deadline = true then "Failed"
  else "In Progress"

/-! ## JavaScript values and plain objects -/

/-- The content of a Node.js `Buffer`: a list of bytes. -/
abbrev Bytes := List Nat

/-- A JavaScript value that is not a plain object. -/
inductive JsAtom where
  | null
  | bool (b : Bool)
  | num (n : Int)
  | str (s : String)
  | date (t : Int)
  | buffer (bytes : Bytes)
  deriving DecidableEq, Repr

/-- A property value of a task object: an atom, or a sub-object (`linkedFile`). -/
inductive JsVal where
  | atom (a : JsAtom)
  | obj (fields : List (String × JsAtom))
  deriving DecidableEq, Repr

/-- A plain JavaScript object: its own properties in insertion order. -/
abbrev JsObject := List (String × JsVal)

/-- Property read `o[key]`; `none` is `undefined`. -/
def JsObject.get : JsObject → String → Option JsVal
  | [], _ => none
  | (k, v) :: rest, key => if k = key then some v else JsObject.get rest key

/-- Property write `o[key] = v`: overwrites in place, or appends a new property. -/
def JsObject.set : JsObject → String → JsVal → JsObject
  | [], key, v => [(key, v)]
  | (k, w) :: rest, key, v =>
    if k = key then (k, v) :: rest else (k, w) :: JsObject.set rest key v

/-- The statement `delete o[key]`. -/
def JsObject.delete (o : JsObject) (key : String) : JsObject :=
  o.filter (fun p => decide (p.1 ≠ key))

/-- Whether an atom is a `Buffer`. -/
def JsAtom.isBuffer : JsAtom → Bool
  | .buffer _ => true
  | _ => false

/-- Whether a property value is a `Buffer` or holds one. -/
def JsVal.hasBuffer : JsVal → Bool
  | .atom a => a.isBuffer
  | .obj fields => fields.any (fun p => p.2.isBuffer)

/-- Whether some property of the object, at any depth, is a `Buffer`. -/
def JsObject.hasBuffer (o : JsObject) : Bool :=
  o.any (fun p => p.2.hasBuffer)

/-- A nullable string property as a JavaScript value. -/
def optStr : Option String → JsAtom
  | some s => .str s
  | none => .null

/-! ## Strings -/

/-- The characters `String.prototype.trim` strips: ECMAScript WhiteSpace and
LineTerminator code points. -/
def isJsWhiteSpace (c : Char) : Bool :=
  [0x09, 0x0A, 0x0B, 0x0C, 0x0D, 0x20, 0xA0, 0x1680, 0x2028, 0x2029, 0x202F, 0x205F,
    0x3000, 0xFEFF].contains c.toNat || (decide (0x2000 ≤ c.toNat) && decide (c.toNat ≤ 0x200A))

/-- The method `String.prototype.trim`. -/
def jsTrim (s : String) : String :=
  String.mk ((s.toList.dropWhile isJsWhiteSpace).reverse.dropWhile isJsWhiteSpace).reverse

/-- The `length` of a JavaScript string: its number of UTF-16 code units. -/
def jsLength (s : String) : Nat :=
  (s.toList.map (fun c => if c.toNat < 0x10000 then 1 else 2)).sum

/-- The operator `a || b` on a nullable string: `b` when `a` is `null` or empty. -/
def orDefault (a : Option String) (b : String) : String :=
  match a with
  | some s => if s = "" then b else s
  | none => b

/-! ## Errors -/

/-- A JavaScript `Error` with the ad hoc properties this code base reads:
`name`, `message`, `status`, `code` and (for a Mongoose `ValidationError`) `errors`,
the per-path messages in insertion order. -/
structure JsError where
  name : String
  message : String
  status : Option Nat
  code : Option String
  errors : List (String × String)
  deriving DecidableEq, Repr

/-- The statements `const err = new Error(msg); err.status = 404; throw err`. -/
def notFound (msg : String) : JsError :=
  { name := "Error", message := msg, status := some 404, code := none, errors := [] }

/-! ## The Task model (`backend/models/task.model.js`) -/

/-- An `ObjectId`, held as its canonical text: 24 lower-case hexadecimal digits. -/
structure ObjectId where
  hex : String
  deriving DecidableEq, Repr

/-- Hexadecimal digit, either case. -/
def isHexDigit (c : Char) : Bool :=
  (decide ('0' ≤ c) && decide (c ≤ '9')) || (decide ('a' ≤ c) && decide (c ≤ 'f')) ||
    (decide ('A' ≤ c) && decide (c ≤ 'F'))

/-- Lower-case form of a hexadecimal digit. -/
def lowerHex (c : Char) : Char :=
  if c = 'A' then 'a' else if c = 'B' then 'b' else if c = 'C' then 'c'
  else if c = 'D' then 'd' else if c = 'E' then 'e' else if c = 'F' then 'f' else c

/-- Mongoose casting a request parameter (always a string) to an `ObjectId` for a query on
`_id`: a string of exactly 24 hexadecimal digits is accepted, any other string is a cast
failure.  (Drivers older than bson 5 also accept 12-character strings; no string shorter
than 12 characters is accepted by any release.) -/
def castObjectId (s : String) : Option ObjectId :=
  if s.toList.length = 24 ∧ s.toList.all isHexDigit = true then
    some ⟨String.mk (s.toList.map lowerHex)⟩
  else none

/-- The `CastError` Mongoose raises when a query on `_id` is given a string that is not an
`ObjectId`.  It carries neither `status` nor `code`. -/
def castError (value : String) : JsError :=
  { name := "CastError",
    message := "Cast to ObjectId failed for value \"" ++ value ++
      "\" (type string) at path \"_id\" for model \"Task\"",
    status := none, code := none, errors := [] }

/-- The sub-document `linkedFileSchema`: each path defaults to `null`. -/
structure LinkedFile where
  data : Option Bytes
  contentType : Option String
  filename : Option String
  deriving DecidableEq, Repr

/-- A persisted document of `taskSchema`, with the paths added by `timestamps: true`
and the version key. -/
structure Task where
  _id : ObjectId
  title : String
  description : String
  status : String
  linkedFile : Option LinkedFile
  createdOn : Int
  deadline : Int
  createdAt : Int
  updatedAt : Int
  __v : Nat
  deriving DecidableEq, Repr

/-- The collection behind the `Task` model, in natural (insertion) order. -/
abbrev Collection := List Task

/-- The method `task.toJSON()` with `virtuals: true`: every stored path, then the virtuals
`displayStatus` (whose getter reads the clock, `now`) and `id`. -/
def Task.toJSON (now : Int) (task : Task) : JsObject :=
  [ ("_id", .atom (.str task._id.hex)),
    ("title", .atom (.str task.title)),
    ("description", .atom (.str task.description)),
    ("status", .atom (.str task.status)),
    ("linkedFile",
      match task.linkedFile with
      | some lf =>
        .obj [ ("data", match lf.data with
                        | some bytes => .buffer bytes
                        | none => .null),
               ("contentType", optStr lf.contentType),
               ("filename", optStr lf.filename) ]
      | none => .atom .null),
    ("createdOn", .atom (.date task.createdOn)),
    ("deadline", .atom (.date task.deadline)),
    ("createdAt", .atom (.date task.createdAt)),
    ("updatedAt", .atom (.date task.updatedAt)),
    ("__v", .atom (.num task.__v)),
    ("displayStatus", .atom (.str (displayStatus now task.status (some task.deadline)))),
    ("id", .atom (.str task._id.hex)) ]

/-- The document of the collection whose `_id` is `oid`, if any. -/
def findOne (db : Collection) (oid : ObjectId) : Option Task :=
  db.find? (fun t => decide (t._id = oid))

/-- The query `Task.findById(id)`: casts `id`, then yields the document with that `_id`,
or `null` (`none`). -/
def findById (db : Collection) (id : String) : Except JsError (Option Task) :=
  match castObjectId id with
  | none => .error (castError id)
  | some oid => .ok (findOne db oid)

/-- The query `Task.find().sort({ createdOn: -1 })`: all documents, latest `createdOn`
first. -/
def findSorted (db : Collection) : List Task :=
  db.insertionSort (fun a b => b.createdOn ≤ a.createdOn)

/-- The order of `findSorted` is total. -/
instance createdOnDesc_total : IsTotal Task (fun a b => b.createdOn ≤ a.createdOn) :=
  ⟨fun a b => le_total b.createdOn a.createdOn⟩

/-- The order of `findSorted` is transitive. -/
instance createdOnDesc_trans : IsTrans Task (fun a b => b.createdOn ≤ a.createdOn) :=
  ⟨fun _ _ _ hab hbc => le_trans hbc hab⟩

/-! ### Schema validation -/

/-- Validators of the path `title` on the value after the `trim` setter:
`required`, then `maxlength: 100`. -/
def titleError (title : Option String) : Option String :=
  match title with
  | none => some "Title is required"
  | some s =>
    if jsLength s = 0 then some "Title is required"
    else if 100 < jsLength s then some "Title cannot exceed 100 characters"
    else none

/-- Validators of the path `description` on the value after the `trim` setter:
`required`, then `maxlength: 500`. -/
def descriptionError (description : Option String) : Option String :=
  match description with
  | none => some "Description is required"
  | some s =>
    if jsLength s = 0 then some "Description is required"
    else if 500 < jsLength s then some "Description cannot exceed 500 characters"
    else none

/-- The `enum` validator of the path `status`. -/
def statusError (status : String) : Option String :=
  if status = "TODO" ∨ status = "DONE" then none
  else some "Status must be either TODO or DONE"

/-- The path `deadline` is always assigned a `Date` object by the service; an
`Invalid Date` cannot be cast and is recorded as a cast failure on the path. -/
def deadlineError (deadline : JsDate) : Option String :=
  match deadline with
  | some _ => none
  | none => some "Cast to date failed for value \"Invalid Date\" (type Date) at path \"deadline\""

/-- One entry of `ValidationError.errors` for a path, if its check failed. -/
def pathError (path : String) (e : Option String) : List (String × String) :=
  match e with
  | some msg => [(path, msg)]
  | none => []

/-- The content of `ValidationError.errors`: the cast failure recorded when the document
was built, then the failed validators in schema order. -/
def validationErrors (title description : Option String) (status : String)
    (deadline : JsDate) : List (String × String) :=
  pathError "deadline" (deadlineError deadline) ++ pathError "title" (titleError title) ++
    pathError "description" (descriptionError description) ++
    pathError "status" (statusError status)

/-- The Mongoose `ValidationError` for the given per-path failures. -/
def validationError (errors : List (String × String)) : JsError :=
  { name := "ValidationError",
    message := "Task validation failed: " ++
      ", ".intercalate (errors.map (fun e => e.1 ++ ": " ++ e.2)),
    status := none, code := none, errors := errors }

/-- The object handed to `new Task(...)` by `createTask`. -/
structure TaskPayload where
  title : Option String
  description : Option String
  deadline : JsDate
  status : String
  createdOn : Int
  linkedFile : Option LinkedFile
  deriving DecidableEq, Repr

/-- The steps `new Task(payload)` and `task.save()` for a new document with the generated
`_id` `id`: setters (`trim`) run on assignment, `save` validates and then inserts;
`ts` is the instant the timestamps plug-in reads. -/
def saveNew (id : ObjectId) (ts : Int) (db : Collection) (payload : TaskPayload) :
    Except JsError (Collection × Task) :=
  let title := payload.title.map jsTrim
  let description := payload.description.map jsTrim
  match validationErrors title description payload.status payload.deadline,
      title, description, payload.deadline with
  | [], some t, some d, some dl =>
    let task : Task :=
      { _id := id, title := t, description := d, status := payload.status,
        linkedFile := payload.linkedFile, createdOn := payload.createdOn, deadline := dl,
        createdAt := ts, updatedAt := ts, __v := 0 }
    .ok (db ++ [task], task)
  | errors, _, _, _ => .error (validationError errors)

/-! ## The task service (`backend/services/task.service.js`) -/

/-- The fields of `req.body` (text fields of the multipart form), a finite map. -/
abbrev Body := List (String × String)

/-- Property read on `req.body`; `none` is `undefined`. -/
def Body.field : Body → String → Option String
  | [], _ => none
  | (k, v) :: rest, key => if k = key then some v else Body.field rest key

/-- The Multer file object `req.file` under `memoryStorage`. -/
structure UploadedFile where
  buffer : Bytes
  mimetype : String
  originalname : String
  size : Nat
  deriving DecidableEq, Repr

/-- What a service call reads from its environment: the date parser behind
`new Date(string)`, the instant `new Date()` yields in the service function, the instant
the timestamps plug-in reads on `save`, the instant the `displayStatus` getter reads
during `toJSON`, and the `_id` generated for a new document. -/
structure Env where
  parseDate : String → JsDate
  now : Int
  saveTime : Int
  jsonTime : Int
  newId : ObjectId

/-- The expression `new Date(x)` for a body field `x`: `undefined` gives `Invalid Date`. -/
def newDate (parseDate : String → JsDate) (x : Option String) : JsDate :=
  match x with
  | some s => parseDate s
  | none => none

/-- The expression `!!(task.linkedFile && task.linkedFile.data)`. -/
def hasFileData (task : Task) : Bool :=
  match task.linkedFile with
  | some lf => lf.data.isSome
  | none => false

namespace Service

/-- The helper `sanitizeTask`. -/
def sanitizeTask (now : Int) (task : Task) : JsObject :=
  let obj := task.toJSON now
  let hasFile := hasFileData task
  let obj := obj.set "hasFile" (.atom (.bool hasFile))
  let obj := obj.set "linkedFile"
    (if hasFile then
      .obj [ ("filename", optStr (task.linkedFile.bind (fun lf => lf.filename))),
             ("contentType", optStr (task.linkedFile.bind (fun lf => lf.contentType))) ]
    else .atom .null)
  obj.delete "displayStatus"

/-- The service method `getAllTasks`. -/
def getAllTasks (now : Int) (db : Collection) : List JsObject :=
  (findSorted db).map (sanitizeTask now)

/-- The service method `getTaskById`. -/
def getTaskById (now : Int) (db : Collection) (id : String) : Except JsError JsObject :=
  match findById db id with
  | .error e => .error e
  | .ok none => .error (notFound "Task not found")
  | .ok (some task) => .ok (sanitizeTask now task)

/-- The object `getTaskFile` returns. -/
structure FileDownload where
  data : Bytes
  contentType : String
  filename : String
  deriving DecidableEq, Repr

/-- The service method `getTaskFile`. -/
def getTaskFile (db : Collection) (id : String) : Except JsError FileDownload :=
  match findById db id with
  | .error e => .error e
  | .ok none => .error (notFound "Task not found")
  | .ok (some task) =>
    match task.linkedFile with
    | none => .error (notFound "No file attached to this task")
    | some lf =>
      match lf.data with
      | none => .error (notFound "No file attached to this task")
      | some bytes =>
        .ok { data := bytes,
              contentType := orDefault lf.contentType "application/pdf",
              filename := orDefault lf.filename "file.pdf" }

/-- The object `createTask` hands to `new Task(...)`: only `title`, `description` and
`deadline` are read from `taskData`. -/
def createPayload (env : Env) (taskData : Body) (file : Option UploadedFile) : TaskPayload :=
  { title := taskData.field "title",
    description := taskData.field "description",
    deadline := newDate env.parseDate (taskData.field "deadline"),
    status := "TODO",
    createdOn := env.now,
    linkedFile := file.map (fun f =>
      { data := some f.buffer, contentType := some f.mimetype,
        filename := some f.originalname }) }

/-- The service method `createTask`: the new collection and the sanitized record. -/
def createTask (env : Env) (db : Collection) (taskData : Body) (file : Option UploadedFile) :
    Except JsError (Collection × JsObject) :=
  match saveNew env.newId env.saveTime db (createPayload env taskData file) with
  | .error e => .error e
  | .ok (db', saved) => .ok (db', sanitizeTask env.jsonTime saved)

end Service

/-! ## The HTTP boundary (`backend/index.js`, `backend/controllers/task.controller.js`) -/

/-- The `data` member of a success envelope. -/
inductive ResponseData where
  | task (t : JsObject)
  | tasks (ts : List JsObject)
  deriving DecidableEq, Repr

/-- An HTTP response with a JSON envelope: status code, `success`, `message`, `data`. -/
structure HttpResponse where
  status : Nat
  success : Bool
  message : Option String
  data : Option ResponseData
  deriving DecidableEq, Repr

/-- The centralised error handler of `backend/index.js`. -/
def errorHandler (err : JsError) : HttpResponse :=
  if err.code = some "LIMIT_FILE_SIZE" then
    { status := 400, success := false,
      message := some "File too large – max 10 MB allowed.", data := none }
  else if err.message = "Only PDF files are allowed" then
    { status := 400, success := false, message := some err.message, data := none }
  else if err.status = some 404 then
    { status := 404, success := false, message := some err.message, data := none }
  else
    { status := 500, success := false, message := some "Internal server error", data := none }

namespace Controller

/-- The controller `getTaskById` of `GET /api/tasks/:id`, with `next(err)` resolved to
the centralised error handler. -/
def getTaskById (now : Int) (db : Collection) (id : String) : HttpResponse :=
  match Service.getTaskById now db id with
  | .ok task => { status := 200, success := true, message := none, data := some (.task task) }
  | .error err => errorHandler err

end Controller

/-! ## Updating, completing and deleting (`backend/services/task.service.js`) -/

/-- JavaScript truthiness of a body field: `undefined` and the empty string are falsy,
every other string is truthy. -/
def truthy : Option String → Bool
  | some s => decide (s ≠ "")
  | none => false

/-- Writing a loaded document back: the first document with its `_id` is replaced. -/
def replaceOne : Collection → Task → Collection
  | [], _ => []
  | t :: rest, doc => if t._id = doc._id then doc :: rest else t :: replaceOne rest doc

/-- Removing the first document with the given `_id`. -/
def deleteOne : Collection → ObjectId → Collection
  | [], _ => []
  | t :: rest, oid => if t._id = oid then rest else t :: deleteOne rest oid

/-- The call `task.save()` on a loaded document whose paths now hold the given values
(`deadline` is `none` when an `Invalid Date` was assigned).  The document is validated,
the paths loaded from the store included (a stored value that meets the schema passes
again); when no path changed nothing is written; otherwise the timestamps plug-in sets
`updatedAt` to `ts` and the document replaces the stored one. -/
def saveExisting (ts : Int) (db : Collection) (task : Task) (title description status : String)
    (deadline : JsDate) (linkedFile : Option LinkedFile) : Except JsError (Collection × Task) :=
  match validationErrors (some title) (some description) status deadline, deadline with
  | [], some dl =>
    let edited : Task :=
      { task with title := title, description := description, status := status,
                  deadline := dl, linkedFile := linkedFile }
    let saved : Task := if edited = task then task else { edited with updatedAt := ts }
    .ok (replaceOne db saved, saved)
  | errors, _ => .error (validationError errors)

/-- The query `Task.findByIdAndDelete(id)`: casts `id`, removes the document with that
`_id` and yields it, or yields `null` when there is none. -/
def findByIdAndDelete (db : Collection) (id : String) :
    Except JsError (Collection × Option Task) :=
  match castObjectId id with
  | none => .error (castError id)
  | some oid =>
    match findOne db oid with
    | some task => .ok (deleteOne db oid, some task)
    | none => .ok (db, none)

/-- The sub-document built from a Multer file object. -/
def linkedFileOf (file : UploadedFile) : LinkedFile :=
  { data := some file.buffer, contentType := some file.mimetype,
    filename := some file.originalname }

namespace Service

/-- The value of `task.title` (or `task.description`) after `if (x) task.x = x`:
a truthy field is assigned and trimmed by the setter, otherwise the path keeps its
value. -/
def assignText (field : Option String) (current : String) : String :=
  match field with
  | some s => if s ≠ "" then jsTrim s else current
  | none => current

/-- The value of `task.deadline` after `if (deadline) task.deadline = new Date(deadline)`. -/
def assignDeadline (parseDate : String → JsDate) (field : Option String) (current : Int) :
    JsDate :=
  match field with
  | some s => if s ≠ "" then parseDate s else some current
  | none => some current

/-- The value of `task.status` after
`if (status && ['TODO', 'DONE'].includes(status)) task.status = status`. -/
def assignStatus (field : Option String) (current : String) : String :=
  match field with
  | some s => if s ≠ "" ∧ (s = "TODO" ∨ s = "DONE") then s else current
  | none => current

/-- The value of `task.linkedFile` after the `if (file)` block. -/
def assignFile (file : Option UploadedFile) (current : Option LinkedFile) :
    Option LinkedFile :=
  match file with
  | some f => some (linkedFileOf f)
  | none => current

/-- The service method `updateTask`: the new collection and the sanitized record. -/
def updateTask (env : Env) (db : Collection) (id : String) (taskData : Body)
    (file : Option UploadedFile) : Except JsError (Collection × JsObject) :=
  match findById db id with
  | .error e => .error e
  | .ok none => .error (notFound "Task not found")
  | .ok (some task) =>
    match saveExisting env.saveTime db task
        (assignText (taskData.field "title") task.title)
        (assignText (taskData.field "description") task.description)
        (assignStatus (taskData.field "status") task.status)
        (assignDeadline env.parseDate (taskData.field "deadline") task.deadline)
        (assignFile file task.linkedFile) with
    | .error e => .error e
    | .ok (db', updated) => .ok (db', sanitizeTask env.jsonTime updated)

/-- The service method `markAsDone`. -/
def markAsDone (env : Env) (db : Collection) (id : String) :
    Except JsError (Collection × JsObject) :=
  match findById db id with
  | .error e => .error e
  | .ok none => .error (notFound "Task not found")
  | .ok (some task) =>
    match saveExisting env.saveTime db task task.title task.description "DONE"
        (some task.deadline) task.linkedFile with
    | .error e => .error e
    | .ok (db', updated) => .ok (db', sanitizeTask env.jsonTime updated)

/-- The service method `deleteTask`: the new collection and the confirmation message. -/
def deleteTask (db : Collection) (id : String) : Except JsError (Collection × String) :=
  match findByIdAndDelete db id with
  | .error e => .error e
  | .ok (_, none) => .error (notFound "Task not found")
  | .ok (db', some _) => .ok (db', "Task deleted successfully")

end Service

/-! ## Upload middleware (`backend/middleware/upload.js`) -/

/-- The file part of a multipart request in the field `linkedFile`, as it is sent: the
filename and the media type text that its headers declare, and the content. -/
structure RawFilePart where
  filename : String
  contentType : String
  content : Bytes
  deriving DecidableEq, Repr

/-- The file as Multer describes it to the filter: `originalname` is the declared filename,
`mimetype` is the multipart parser's reading of the declared media type (lower case,
parameters dropped); the content follows. -/
structure FilePart where
  originalname : String
  mimetype : String
  content : Bytes
  deriving DecidableEq, Repr

/-- The error `new Error('Only PDF files are allowed')` of the file filter. -/
def invalidFileError : JsError :=
  { name := "Error", message := "Only PDF files are allowed", status := none, code := none,
    errors := [] }

/-- The `MulterError` raised when a file reaches `limits.fileSize`. -/
def fileTooLargeError : JsError :=
  { name := "MulterError", message := "File too large", status := none,
    code := some "LIMIT_FILE_SIZE", errors := [] }

/-- The callback `fileFilter`: `cb(null, true)` is `.ok true`, `cb(err, false)` is
`.error err`. -/
def fileFilter (file : FilePart) : Except JsError Bool :=
  if file.mimetype = "application/pdf" then .ok true
  else .error invalidFileError

/-- The option `limits.fileSize`: 10 MB. -/
def fileSizeLimit : Nat := 10 * 1024 * 1024

/-- The file object Multer builds for a named file part; `mimeOf` is the multipart parser's
reading of a declared media type. -/
def describePart (mimeOf : String → String) (raw : RawFilePart) : FilePart :=
  { originalname := raw.filename, mimetype := mimeOf raw.contentType, content := raw.content }

/-- The middleware `upload.single('linkedFile')` on the file part of the request, if any.
A part without a filename is skipped (no `req.file`); otherwise the filter runs on the
file object before the content is read, and an accepted file is buffered in memory unless
its content reaches the size limit.  The result is `req.file`, or the error passed to
`next`. -/
def uploadSingle (mimeOf : String → String) (part : Option RawFilePart) :
    Except JsError (Option UploadedFile) :=
  match part with
  | none => .ok none
  | some raw =>
    if raw.filename = "" then .ok none
    else
      match fileFilter (describePart mimeOf raw) with
      | .error e => .error e
      | .ok false => .ok none
      | .ok true =>
        if fileSizeLimit ≤ raw.content.length then .error fileTooLargeError
        else .ok (some { buffer := raw.content, mimetype := mimeOf raw.contentType,
                         originalname := raw.filename, size := raw.content.length })

/-! ## Controllers and routes for create and update -/

/-- A service method as a controller sees it: it reads and writes the collection. -/
abbrev ServiceCall := Collection → Body → Option UploadedFile →
  Except JsError (Collection × JsObject)

/-- A route handler after the upload middleware: from the collection, `req.body` and
`req.file` to the response and the collection afterwards. -/
abbrev Handler := Collection → Body → Option UploadedFile → HttpResponse × Collection

/-- The `catch` block shared by the create and update controllers: a Mongoose
`ValidationError` becomes a 400 with the joined field messages, anything else goes to the
centralised error handler. -/
def onServiceError (err : JsError) : HttpResponse :=
  if err.name = "ValidationError" then
    { status := 400, success := false,
      message := some (", ".intercalate (err.errors.map (fun e => e.2))), data := none }
  else errorHandler err

namespace Controller

/-- The controller `createTask` of `POST /api/tasks`, over the service method it calls
(`taskService.createTask`). -/
def createTaskWith (service : ServiceCall) : Handler := fun db body file =>
  if !truthy (body.field "title") || !truthy (body.field "description") ||
      !truthy (body.field "deadline") then
    ({ status := 400, success := false,
       message := some "title, description and deadline are all required", data := none }, db)
  else
    match service db body file with
    | .ok (db', task) =>
      ({ status := 201, success := true, message := some "Task created successfully",
         data := some (.task task) }, db')
    | .error err => (onServiceError err, db)

/-- The controller `createTask` with the task service in place. -/
def createTask (env : Env) : Handler :=
  createTaskWith (Service.createTask env)

/-- The controller `updateTask` of `PUT /api/tasks/:id`, over the service method it calls
(`taskService.updateTask` at `req.params.id`). -/
def updateTaskWith (service : ServiceCall) : Handler := fun db body file =>
  match service db body file with
  | .ok (db', task) =>
    ({ status := 200, success := true, message := some "Task updated successfully",
       data := some (.task task) }, db')
  | .error err => (onServiceError err, db)

/-- The controller `updateTask` with the task service in place. -/
def updateTask (env : Env) (id : String) : Handler :=
  updateTaskWith (fun db body file => Service.updateTask env db id body file)

end Controller

/-- A create or update request: its text fields and its file part, if any. -/
structure Request where
  body : Body
  file : Option RawFilePart
  deriving DecidableEq, Repr

namespace Routes

/-- A route `upload.single('linkedFile'), handler`: an error of the middleware goes to the
centralised error handler and the handler is skipped; otherwise the handler runs with
`req.file` set. -/
def withUpload (mimeOf : String → String) (handler : Handler) (db : Collection)
    (req : Request) : HttpResponse × Collection :=
  match uploadSingle mimeOf req.file with
  | .error e => (errorHandler e, db)
  | .ok file => handler db req.body file

/-- The route `router.post('/', upload.single('linkedFile'), controller.createTask)`. -/
def postTask (mimeOf : String → String) (env : Env) (db : Collection) (req : Request) :
    HttpResponse × Collection :=
  withUpload mimeOf (Controller.createTask env) db req

/-- The route `router.put('/:id', upload.single('linkedFile'), controller.updateTask)`. -/
def putTask (mimeOf : String → String) (env : Env) (id : String) (db : Collection)
    (req : Request) : HttpResponse × Collection :=
  withUpload mimeOf (Controller.updateTask env id) db req

end Routes

/-! ## Store invariants and outcomes -/

/-- The schema's rules for the text paths of a stored document: `title` of 1 to 100 and
`description` of 1 to 500 UTF-16 code units. -/
def Task.textValid (t : Task) : Prop :=
  0 < jsLength t.title ∧ jsLength t.title ≤ 100 ∧
  0 < jsLength t.description ∧ jsLength t.description ≤ 500

/-- The schema's rules for a stored document: valid text paths and a status of the enum. -/
def Task.meetsSchema (t : Task) : Prop :=
  t.textValid ∧ (t.status = "TODO" ∨ t.status = "DONE")

/-- The rules on the text paths can be checked. -/
instance Task.textValid_decidable (t : Task) : Decidable t.textValid := by
  unfold Task.textValid
  infer_instance

/-- The rules of the schema can be checked. -/
instance Task.meetsSchema_decidable (t : Task) : Decidable t.meetsSchema := by
  unfold Task.meetsSchema
  infer_instance

/-- The collection after a service call on `db`: a call that throws has written nothing. -/
def storeAfter {α : Type} (db : Collection) (result : Except JsError (Collection × α)) :
    Collection :=
  match result with
  | .ok (db', _) => db'
  | .error _ => db

/-! ## Sequences of updates -/

/-- A call of `updateTask` or `markAsDone`, with the environment it runs in. -/
inductive Mutation where
  | update (env : Env) (id : String) (taskData : Body) (file : Option UploadedFile)
  | markDone (env : Env) (id : String)

/-- The collection after one call. -/
def Mutation.run (db : Collection) : Mutation → Collection
  | .update env id taskData file => storeAfter db (Service.updateTask env db id taskData file)
  | .markDone env id => storeAfter db (Service.markAsDone env db id)

/-- The collection after a sequence of calls, in order. -/
def runMutations (db : Collection) (calls : List Mutation) : Collection :=
  calls.foldl Mutation.run db

/-- What the schema guarantees of a persisted document: text paths within their bounds and
held trimmed, and a status of the enum. -/
def Task.persistedOk (t : Task) : Prop :=
  t.meetsSchema ∧ jsTrim t.title = t.title ∧ jsTrim t.description = t.description

/-- The guarantee can be checked. -/
instance Task.persistedOk_decidable (t : Task) : Decidable t.persistedOk := by
  unfold Task.persistedOk
  infer_instance

/-! ## Client utilities (`frontend/src/utils/index.js`) -/

/-- The helper `isOverdue`: `status` is `task.status`, `deadline` is
`new Date(task.deadline)`, `now` is `new Date()`. -/
def isOverdue (now : Int) (status : String) (deadline : JsDate) : Bool :=
  decide (status ≠ "DONE") && JsDate.lt deadline (some now)

/-- A browser `File` as `validatePdfFile` reads it. -/
structure BrowserFile where
  name : String
  type : String
  size : Nat
  deriving DecidableEq, Repr

/-- The constant `MAX_FILE_SIZE`. -/
def MAX_FILE_SIZE : Nat := 10 * 1024 * 1024

/-- The helper `validatePdfFile`; `none` is `null`, for the file and for the result. -/
def validatePdfFile (file : Option BrowserFile) : Option String :=
  match file with
  | none => none
  | some f =>
    if f.type ≠ "application/pdf" then some "Only PDF files are allowed"
    else if f.size > MAX_FILE_SIZE then some "File must be under 10 MB"
    else none

/-- The method `toFixed(0)` on the quotient `num / den` of two naturals, for a quotient
that the number type holds exactly: the digits of the nearest integer, the larger one when
two are equally near. -/
def toFixed0 (num den : Nat) : String :=
  Nat.repr ((2 * num + den) / (2 * den))

/-- The helper `formatFileSize` on a byte count below 2^53, for which `bytes / 1024` is
exact in floating point. -/
def formatFileSize (bytes : Nat) : String :=
  toFixed0 bytes 1024 ++ " KB"

/-! ## Client task list (`frontend/src/hooks/useTaskManager.js`) -/

/-- The state the handlers write: the task list of `useTask`, its error, and the success
message. -/
structure TaskListState where
  tasks : List JsObject
  error : Option String
  successMsg : String
  deriving DecidableEq, Repr

/-- The updater `(prev) => prev.map((t) => (t._id === updated._id ? updated : t))`. -/
def replaceById (updated : JsObject) (prev : List JsObject) : List JsObject :=
  prev.map (fun t => if t.get "_id" = updated.get "_id" then updated else t)

/-- The handler `handleCreate`, given what the request `createTask(formData)` settled to:
the created task, or the message of the rejection. -/
def handleCreate (st : TaskListState) (response : Except String JsObject) : TaskListState :=
  match response with
  | .ok created =>
    { tasks := created :: st.tasks, error := none, successMsg := "Task created successfully!" }
  | .error message => { st with error := some message }

/-- The handler `handleUpdate`, given what the request `updateTask(id, formData)` settled
to. -/
def handleUpdate (st : TaskListState) (response : Except String JsObject) : TaskListState :=
  match response with
  | .ok updated =>
    { tasks := replaceById updated st.tasks, error := none,
      successMsg := "Task updated successfully!" }
  | .error message => { st with error := some message }

/-- The handler `handleMarkAsDone`, given what the request `markTaskAsDone(id)` settled
to. -/
def handleMarkAsDone (st : TaskListState) (response : Except String JsObject) :
    TaskListState :=
  match response with
  | .ok updated =>
    { tasks := replaceById updated st.tasks, error := none,
      successMsg := "Task marked as done!" }
  | .error message => { st with error := some message }

/-! ## The task form (`frontend/src/components/TaskModal.jsx`) -/

/-- The state `form` of the modal. -/
structure TaskForm where
  title : String
  description : String
  deadline : String
  deriving DecidableEq, Repr

namespace TaskModal

/-- The function `validate`: the error texts it sets and the flag `ok` it returns. -/
def validate (form : TaskForm) : TaskForm × Bool :=
  let title : String × Bool :=
    if jsTrim form.title = "" then ("Title is required", false)
    else if jsLength form.title > 100 then ("Max 100 characters", false)
    else ("", true)
  let description : String × Bool :=
    if jsTrim form.description = "" then ("Description is required", false)
    else if jsLength form.description > 500 then ("Max 500 characters", false)
    else ("", true)
  let deadline : String × Bool :=
    if form.deadline = "" then ("Deadline is required", false) else ("", true)
  ({ title := title.1, description := description.1, deadline := deadline.1 },
    title.2 && description.2 && deadline.2)

/-- The text fields `handleSubmit` appends to the `FormData`. -/
def submittedFields (form : TaskForm) : Body :=
  [("title", jsTrim form.title), ("description", jsTrim form.description),
   ("deadline", form.deadline)]

end TaskModal

/-! ## Sample data -/

/-- A well-formed `ObjectId`. -/
def sampleId : ObjectId := ⟨"64b7f3a2c9e77a0012345678"⟩

/-- A second well-formed `ObjectId`. -/
def sampleId2 : ObjectId := ⟨"64b7f3a2c9e77a0012345679"⟩

/-- A date parser that knows the dates of the seeded task:
`2024-08-16` and `2024-08-19` at midnight UTC. -/
def sampleParseDate (s : String) : JsDate :=
  if s = "2024-08-19" then some 1724025600000
  else if s = "2024-08-16" then some 1723766400000
  else none

/-- An environment: the clock reads 2024-08-17, 00:00:00.000 to 00:00:00.002 UTC. -/
def sampleEnv : Env :=
  { parseDate := sampleParseDate, now := 1723852800000, saveTime := 1723852800001,
    jsonTime := 1723852800002, newId := sampleId }

/-- A create request body: the title carries surrounding blanks, and the client also
sends `status` and `createdOn`. -/
def sampleBody : Body :=
  [("title", "  Study X "), ("description", "Read docs"), ("deadline", "2024-08-19"),
   ("status", "DONE"), ("createdOn", "1999-01-01")]

/-- The record `createTask` stores for `sampleBody` in `sampleEnv`. -/
def sampleCreated : Task :=
  { _id := sampleId, title := "Study X", description := "Read docs", status := "TODO",
    linkedFile := none, createdOn := 1723852800000, deadline := 1724025600000,
    createdAt := 1723852800001, updatedAt := 1723852800001, __v := 0 }

/-- Lower case of an ASCII letter. -/
def asciiLower (c : Char) : Char :=
  if 'A' ≤ c ∧ c ≤ 'Z' then Char.ofNat (c.toNat + 32) else c

/-- The multipart parser's reading of a well-formed declared media type
`type/subtype; parameters`: the parameters are dropped and the rest is put in lower
case. -/
def sampleMimeOf (declared : String) : String :=
  String.mk (((declared.toList.takeWhile (fun c => decide (c ≠ ';'))).rdropWhile
    (fun c => decide (c = ' '))).map asciiLower)

/-- A request file part that declares plain text. -/
def sampleTextPart : RawFilePart :=
  { filename := "notes.txt", contentType := "text/plain", content := [104, 105] }

/-- A request file part that declares a PDF in upper case. -/
def samplePdfPart : RawFilePart :=
  { filename := "plan.pdf", contentType := "application/PDF",
    content := [37, 80, 68, 70, 45] }

/-- A request file part without a filename that declares plain text. -/
def sampleUnnamedPart : RawFilePart :=
  { filename := "", contentType := "text/plain", content := [104, 105] }

/-- An uploaded PDF. -/
def sampleUpload : UploadedFile :=
  { buffer := [37, 80, 68, 70, 45], mimetype := "application/pdf",
    originalname := "plan.pdf", size := 5 }

/-- A handler that stores the seeded task whatever the request. -/
def sampleStoringHandler : Handler := fun _ _ _ =>
  ({ status := 201, success := true, message := none, data := none }, [sampleCreated])

/-- An attachment. -/
def sampleFile : LinkedFile :=
  { data := some [37, 80, 68, 70], contentType := some "application/pdf",
    filename := some "notes.pdf" }

/-- The task seeded by `backend/index.js`, here with an attachment. -/
def sampleTask : Task :=
  { _id := sampleId, title := "Study TypeScript",
    description := "Read the documentation and make notes.", status := "TODO",
    linkedFile := some sampleFile, createdOn := 1723766400000, deadline := 1724025600000,
    createdAt := 1723766400000, updatedAt := 1723766400000, __v := 0 }

/-- A later task without attachment. -/
def sampleTask2 : Task :=
  { _id := sampleId2, title := "Ship", description := "Release it.", status := "DONE",
    linkedFile := none, createdOn := 1723852800000, deadline := 1724025600000,
    createdAt := 1723852800000, updatedAt := 1723852800000, __v := 0 }

/-- A form as a user may fill it in. -/
def sampleForm : TaskForm :=
  { title := "  Study X ", description := "Read docs", deadline := "2024-08-19" }

/-- A client-side task list: the sanitized forms of the two sample tasks. -/
def sampleList : List JsObject :=
  [Service.sanitizeTask 0 sampleTask2, Service.sanitizeTask 0 sampleTask]

/-! ## Theorems: status derivation -/

/-- C1: for a status in {TODO, DONE}, a valid deadline `d` and a fixed instant `now`,
`getDisplayStatus` is 'Achieved' for DONE with `now > d`, 'Done' for DONE with `now ≤ d`,
'Failed' for TODO with `now ≥ d` and 'In Progress' for TODO with `now < d`. -/
theorem getDisplayStatus_cases (now d : Int) (status : String)
    (hs : status = "TODO" ∨ status = "DONE") :
    (status = "DONE" → now > d → getDisplayStatus now status (some d) = "Achieved") ∧
    (status = "DONE" → now ≤ d → getDisplayStatus now status (some d) = "Done") ∧
    (status = "TODO" → now ≥ d → getDisplayStatus now status (some d) = "Failed") ∧
    (status = "TODO" → now < d → getDisplayStatus now status (some d) = "In Progress") := by
  rcases hs with hs | hs <;> subst hs
  · refine ⟨fun h => absurd h (by decide), fun h => absurd h (by decide), ?_, ?_⟩
    · intro _ h
      simp [getDisplayStatus, JsDate.gt, JsDate.le, JsDate.ge, h]
    · intro _ h
      simp [getDisplayStatus, JsDate.gt, JsDate.le, JsDate.ge, h]
  · refine ⟨?_, ?_, fun h => absurd h (by decide), fun h => absurd h (by decide)⟩
    · intro _ h
      simp [getDisplayStatus, JsDate.gt, h]
    · intro _ h
      have h2 : ¬ d < now := not_lt.mpr h
      simp [getDisplayStatus, JsDate.gt, JsDate.le, h, h2]

/-- Witness for C1: the four cases at concrete instants. -/
theorem getDisplayStatus_cases_witness :
    getDisplayStatus 5 "DONE" (some 3) = "Achieved" ∧
    getDisplayStatus 3 "DONE" (some 5) = "Done" ∧
    getDisplayStatus 5 "TODO" (some 3) = "Failed" ∧
    getDisplayStatus 3 "TODO" (some 5) = "In Progress" :=
  ⟨(getDisplayStatus_cases 5 3 "DONE" (Or.inr rfl)).1 rfl (by decide),
   (getDisplayStatus_cases 3 5 "DONE" (Or.inr rfl)).2.1 rfl (by decide),
   (getDisplayStatus_cases 5 3 "TODO" (Or.inl rfl)).2.2.1 rfl (by decide),
   (getDisplayStatus_cases 3 5 "TODO" (Or.inl rfl)).2.2.2 rfl (by decide)⟩

/-- C2: when the deadline is exactly the current instant, `getDisplayStatus` is 'Failed'
for a TODO task and 'Done' (not 'Achieved') for a DONE task. -/
theorem getDisplayStatus_at_deadline (now : Int) :
    getDisplayStatus now "TODO" (some now) = "Failed" ∧
    getDisplayStatus now "DONE" (some now) = "Done" ∧
    getDisplayStatus now "DONE" (some now) ≠ "Achieved" := by
  simp [getDisplayStatus, JsDate.gt, JsDate.le, JsDate.ge]

/-- C3 (evaluation at the diverging input): for a DONE task whose deadline has not passed
the server-side virtual yields 'In Progress' while the client-side function yields 'Done',
so the two derivations are not identical. -/
theorem displayStatus_differs_from_client :
    displayStatus 0 "DONE" (some 0) = "In Progress" ∧
    getDisplayStatus 0 "DONE" (some 0) = "Done" ∧
    displayStatus 0 "DONE" (some 0) ≠ getDisplayStatus 0 "DONE" (some 0) := by
  simp [displayStatus, getDisplayStatus, JsDate.gt, JsDate.le, JsDate.ge]

/-- C4 (counterexample): a DONE task at its deadline gets the label 'Done', which is none
of 'In Progress', 'Achieved', 'Failed'. -/
theorem getDisplayStatus_not_three_labels :
    ¬ (∀ (now : Int) (status : String) (deadline : JsDate),
        getDisplayStatus now status deadline = "In Progress" ∨
        getDisplayStatus now status deadline = "Achieved" ∨
        getDisplayStatus now status deadline = "Failed") := by
  intro h
  have h0 := h 0 "DONE" (some 0)
  simp [getDisplayStatus, JsDate.gt, JsDate.le, JsDate.ge] at h0

/-- C4 (amended): for every task (any status text, any deadline, valid or not) and every
fixed instant, `getDisplayStatus` returns one of exactly four labels, 'In Progress',
'Achieved', 'Failed' or 'Done', and each of the four is returned for some task. -/
theorem getDisplayStatus_four_labels :
    (∀ (now : Int) (status : String) (deadline : JsDate),
        getDisplayStatus now status deadline = "In Progress" ∨
        getDisplayStatus now status deadline = "Achieved" ∨
        getDisplayStatus now status deadline = "Failed" ∨
        getDisplayStatus now status deadline = "Done") ∧
    (∃ now status deadline, getDisplayStatus now status deadline = "In Progress") ∧
    (∃ now status deadline, getDisplayStatus now status deadline = "Achieved") ∧
    (∃ now status deadline, getDisplayStatus now status deadline = "Failed") ∧
    (∃ now status deadline, getDisplayStatus now status deadline = "Done") := by
  refine ⟨?_, ⟨3, "TODO", some 5, ?_⟩, ⟨5, "DONE", some 3, ?_⟩, ⟨5, "TODO", some 3, ?_⟩,
    ⟨3, "DONE", some 5, ?_⟩⟩
  · intro now status deadline
    unfold getDisplayStatus
    split_ifs <;> simp
  all_goals simp [getDisplayStatus, JsDate.gt, JsDate.le, JsDate.ge]

/-! ## Theorems: sanitisation and listing -/

/-- The sanitized record does not depend on the instant the `displayStatus` getter read:
the virtual is deleted again. -/
theorem sanitizeTask_clock_irrelevant (now now' : Int) (task : Task) :
    Service.sanitizeTask now task = Service.sanitizeTask now' task := by
  simp [Service.sanitizeTask, Task.toJSON, JsObject.set, JsObject.delete]

/-- Reading back the stored fields of a sanitized record. -/
theorem sanitizeTask_fields (now : Int) (task : Task) :
    (Service.sanitizeTask now task).get "_id" = some (.atom (.str task._id.hex)) ∧
    (Service.sanitizeTask now task).get "title" = some (.atom (.str task.title)) ∧
    (Service.sanitizeTask now task).get "description" = some (.atom (.str task.description)) ∧
    (Service.sanitizeTask now task).get "status" = some (.atom (.str task.status)) ∧
    (Service.sanitizeTask now task).get "createdOn" = some (.atom (.date task.createdOn)) ∧
    (Service.sanitizeTask now task).get "deadline" = some (.atom (.date task.deadline)) := by
  simp [Service.sanitizeTask, Task.toJSON, JsObject.set, JsObject.delete, JsObject.get]

/-- Before sanitisation the JSON form holds a `Buffer` exactly when the record has
attachment data. -/
theorem toJSON_hasBuffer (now : Int) (task : Task) :
    (task.toJSON now).hasBuffer = hasFileData task := by
  rcases task with ⟨id, title, description, status, linkedFile, createdOn, deadline,
    createdAt, updatedAt, v⟩
  cases linkedFile with
  | none => simp [Task.toJSON, JsObject.hasBuffer, JsVal.hasBuffer, JsAtom.isBuffer, hasFileData]
  | some lf =>
    rcases lf with ⟨data, contentType, filename⟩
    cases data <;> cases contentType <;> cases filename <;>
    simp [Task.toJSON, JsObject.hasBuffer, JsVal.hasBuffer, JsAtom.isBuffer, hasFileData, optStr]

/-- C5: the output of `sanitizeTask` holds a `Buffer` in no field, has `hasFile = true`
exactly when the record has an attachment with data, has `linkedFile` equal to exactly
`{filename, contentType}` of that attachment when `hasFile` is true and `null` otherwise,
and has no `displayStatus` property. -/
theorem sanitizeTask_contract (now : Int) (task : Task) :
    (Service.sanitizeTask now task).hasBuffer = false ∧
    (Service.sanitizeTask now task).get "hasFile" = some (.atom (.bool (hasFileData task))) ∧
    (hasFileData task = true ↔
      ∃ lf bytes, task.linkedFile = some lf ∧ lf.data = some bytes) ∧
    (hasFileData task = true →
      ∃ lf, task.linkedFile = some lf ∧
        (Service.sanitizeTask now task).get "linkedFile" =
          some (.obj [("filename", optStr lf.filename),
                      ("contentType", optStr lf.contentType)])) ∧
    (hasFileData task = false →
      (Service.sanitizeTask now task).get "linkedFile" = some (.atom .null)) ∧
    (Service.sanitizeTask now task).get "displayStatus" = none := by
  rcases task with ⟨id, title, description, status, linkedFile, createdOn, deadline,
    createdAt, updatedAt, v⟩
  cases linkedFile with
  | none =>
    simp [Service.sanitizeTask, Task.toJSON, JsObject.set, JsObject.delete, JsObject.get,
      JsObject.hasBuffer, JsVal.hasBuffer, JsAtom.isBuffer, hasFileData]
  | some lf =>
    rcases lf with ⟨data, contentType, filename⟩
    cases data <;> cases contentType <;> cases filename <;>
    simp [Service.sanitizeTask, Task.toJSON, JsObject.set, JsObject.delete, JsObject.get,
      JsObject.hasBuffer, JsVal.hasBuffer, JsAtom.isBuffer, hasFileData, optStr]

/-- Witness for C5: the seeded task with its attachment. -/
theorem sanitizeTask_contract_witness :
    hasFileData sampleTask = true ∧
    ∃ lf, sampleTask.linkedFile = some lf ∧
      (Service.sanitizeTask 0 sampleTask).get "linkedFile" =
        some (.obj [("filename", optStr lf.filename),
                    ("contentType", optStr lf.contentType)]) :=
  ⟨rfl, (sanitizeTask_contract 0 sampleTask).2.2.2.1 rfl⟩

/-- C6: `getAllTasks` returns the sanitized forms of a rearrangement of the stored tasks
(one entry per stored task, none missing, none duplicated), and the entries are ordered by
`createdOn` descending: of two consecutive entries the earlier one has the greater or
equal `createdOn`. -/
theorem getAllTasks_sorted_perm (now : Int) (db : Collection) :
    (∃ sorted : List Task, sorted.Perm db ∧
      Service.getAllTasks now db = sorted.map (Service.sanitizeTask now) ∧
      sorted.Chain' (fun a b => b.createdOn ≤ a.createdOn)) ∧
    (Service.getAllTasks now db).length = db.length ∧
    (Service.getAllTasks now db).Chain' (fun a b =>
      ∃ x y : Int, a.get "createdOn" = some (.atom (.date x)) ∧
        b.get "createdOn" = some (.atom (.date y)) ∧ y ≤ x) := by
  have hperm : (findSorted db).Perm db := List.perm_insertionSort _ db
  have hsorted : (findSorted db).Sorted (fun a b => b.createdOn ≤ a.createdOn) :=
    List.sorted_insertionSort _ db
  refine ⟨⟨findSorted db, hperm, rfl, hsorted.chain'⟩, ?_, ?_⟩
  · simp [Service.getAllTasks, hperm.length_eq]
  · unfold Service.getAllTasks
    rw [List.chain'_map]
    exact hsorted.chain'.imp (fun {a b} h =>
      ⟨a.createdOn, b.createdOn, (sanitizeTask_fields now a).2.2.2.2.1,
        (sanitizeTask_fields now b).2.2.2.2.1, h⟩)

/-! ## Lemmas: queries, persistence and the error handler -/

/-- A well-formed id is looked up in the collection. -/
theorem findById_of_cast (db : Collection) (id : String) (oid : ObjectId)
    (h : castObjectId id = some oid) : findById db id = .ok (findOne db oid) := by
  simp [findById, h]

/-- A malformed id makes the query fail with a cast error. -/
theorem findById_of_not_cast (db : Collection) (id : String)
    (h : castObjectId id = none) : findById db id = .error (castError id) := by
  simp [findById, h]

/-- The lookup finds nothing exactly when no document has the id. -/
theorem findOne_eq_none_iff (db : Collection) (oid : ObjectId) :
    findOne db oid = none ↔ ∀ t ∈ db, t._id ≠ oid := by
  simp [findOne, List.find?_eq_none]

/-- What the lookup finds is a document of the collection with the id. -/
theorem findOne_some (db : Collection) (oid : ObjectId) (t : Task)
    (h : findOne db oid = some t) : t ∈ db ∧ t._id = oid := by
  unfold findOne at h
  exact ⟨List.mem_of_find?_eq_some h, by simpa using List.find?_some h⟩

/-- When ids are unique, the lookup finds the document with the id. -/
theorem findOne_of_nodup (db : Collection) (oid : ObjectId) (t : Task)
    (hu : (db.map Task._id).Nodup) (hm : t ∈ db) (hid : t._id = oid) :
    findOne db oid = some t := by
  induction db with
  | nil => simp at hm
  | cons a rest ih =>
    simp only [List.map_cons, List.nodup_cons, List.mem_map, not_exists, not_and] at hu
    rcases List.mem_cons.mp hm with h | h
    · subst h
      simp [findOne, hid]
    · have hne : a._id ≠ oid := by
        intro ha
        exact hu.1 t h (by rw [hid, ha])
      have := ih hu.2 h
      simpa [findOne, hne] using this

/-- A document appended under a fresh id is the one the lookup finds. -/
theorem findOne_append_fresh (db : Collection) (t : Task)
    (hfresh : ∀ u ∈ db, u._id ≠ t._id) : findOne (db ++ [t]) t._id = some t := by
  have hnone : List.find? (fun u => decide (u._id = t._id)) db = none := by
    simpa [List.find?_eq_none] using hfresh
  simp [findOne, List.find?_append, hnone]

/-- The message of a cast error is not the upload filter's message. -/
theorem castError_message_ne (value : String) :
    (castError value).message ≠ "Only PDF files are allowed" := by
  intro h
  have h2 := congrArg String.data h
  simp [castError, String.data_append] at h2

/-- The error handler answers a cast error with the generic 500 response. -/
theorem errorHandler_castError (value : String) :
    errorHandler (castError value) =
      { status := 500, success := false, message := some "Internal server error",
        data := none } := by
  have h := castError_message_ne value
  unfold errorHandler
  rw [if_neg (by simp [castError]), if_neg h, if_neg (by simp [castError])]

/-- The error handler answers the service's 'Task not found' with a 404 response. -/
theorem errorHandler_notFound :
    errorHandler (notFound "Task not found") =
      { status := 404, success := false, message := some "Task not found", data := none } := by
  simp [errorHandler, notFound]

/-- A successful `saveNew` appended exactly the document built from the payload. -/
theorem saveNew_ok_inv (id : ObjectId) (ts : Int) (db db' : Collection) (p : TaskPayload)
    (task : Task) (h : saveNew id ts db p = .ok (db', task)) :
    db' = db ++ [task] ∧ task._id = id ∧ task.status = p.status ∧
    task.createdOn = p.createdOn ∧ task.linkedFile = p.linkedFile ∧
    p.title.map jsTrim = some task.title ∧ p.description.map jsTrim = some task.description ∧
    p.deadline = some task.deadline := by
  unfold saveNew at h
  simp only at h
  split at h
  · next hv ht hd hdl =>
    simp only [Except.ok.injEq, Prod.mk.injEq] at h
    obtain ⟨h1, h2⟩ := h
    subst h2
    exact ⟨h1.symm, rfl, rfl, rfl, rfl, ht, hd, hdl⟩
  · simp at h

/-- A payload that meets the schema rules is saved. -/
theorem saveNew_ok (id : ObjectId) (ts : Int) (db : Collection) (p : TaskPayload)
    (t d : String) (dl : Int)
    (ht : p.title = some t) (hd : p.description = some d) (hdl : p.deadline = some dl)
    (hs : p.status = "TODO")
    (ht1 : 0 < jsLength (jsTrim t)) (ht2 : jsLength (jsTrim t) ≤ 100)
    (hd1 : 0 < jsLength (jsTrim d)) (hd2 : jsLength (jsTrim d) ≤ 500) :
    saveNew id ts db p =
      .ok (db ++ [{ _id := id, title := jsTrim t, description := jsTrim d, status := "TODO",
                    linkedFile := p.linkedFile, createdOn := p.createdOn, deadline := dl,
                    createdAt := ts, updatedAt := ts, __v := 0 }],
           { _id := id, title := jsTrim t, description := jsTrim d, status := "TODO",
             linkedFile := p.linkedFile, createdOn := p.createdOn, deadline := dl,
             createdAt := ts, updatedAt := ts, __v := 0 }) := by
  have e1 : titleError (some (jsTrim t)) = none := by
    simp [titleError, Nat.ne_of_gt ht1, Nat.not_lt.mpr ht2]
  have e2 : descriptionError (some (jsTrim d)) = none := by
    simp [descriptionError, Nat.ne_of_gt hd1, Nat.not_lt.mpr hd2]
  simp [saveNew, ht, hd, hdl, hs, validationErrors, e1, e2, deadlineError, statusError,
    pathError]

/-! ## Theorems: lookups -/

/-- C7 (counterexample): on the empty store the id `abc`, which resolves to no stored
task, does not give the NotFound error: the lookup fails with a cast error that carries no
status, and the HTTP boundary answers 500, not 404. -/
theorem getTaskById_malformed_id_not_404 :
    Service.getTaskById 0 [] "abc" = .error (castError "abc") ∧
    Service.getTaskById 0 [] "abc" ≠ .error (notFound "Task not found") ∧
    (castError "abc").status = none ∧
    Controller.getTaskById 0 [] "abc" =
      { status := 500, success := false, message := some "Internal server error",
        data := none } := by
  have hc : castObjectId "abc" = none := by decide
  have h1 : Service.getTaskById 0 [] "abc" = .error (castError "abc") := by
    simp [Service.getTaskById, findById_of_not_cast [] "abc" hc]
  refine ⟨h1, ?_, rfl, ?_⟩
  · rw [h1]
    simp [castError, notFound]
  · simp only [Controller.getTaskById, h1]
    exact errorHandler_castError "abc"

/-- C7 (amended): for every store state and every id that is a well-formed ObjectId
(24 hexadecimal digits), `getTaskById` returns the sanitized form of the stored task with
that id when one exists (200 at the HTTP boundary), and otherwise fails with the NotFound
error (status 404, message 'Task not found'), which the HTTP boundary turns into a 404
response with success=false.  For an id of any other form the lookup fails with a cast
error, which the HTTP boundary turns into a 500 response with success=false. -/
theorem getTaskById_by_id_form (now : Int) (db : Collection) (id : String) :
    (∀ oid, castObjectId id = some oid →
      (∀ t ∈ db, t._id = oid → (db.map Task._id).Nodup →
        Service.getTaskById now db id = .ok (Service.sanitizeTask now t) ∧
        Controller.getTaskById now db id =
          { status := 200, success := true, message := none,
            data := some (.task (Service.sanitizeTask now t)) }) ∧
      ((∀ t ∈ db, t._id ≠ oid) →
        Service.getTaskById now db id = .error (notFound "Task not found") ∧
        (notFound "Task not found").status = some 404 ∧
        (notFound "Task not found").message = "Task not found" ∧
        Controller.getTaskById now db id =
          { status := 404, success := false, message := some "Task not found",
            data := none })) ∧
    (castObjectId id = none →
      Service.getTaskById now db id = .error (castError id) ∧
      Controller.getTaskById now db id =
        { status := 500, success := false, message := some "Internal server error",
          data := none }) := by
  refine ⟨fun oid hid => ⟨?_, ?_⟩, ?_⟩
  · intro t hm ht hu
    have hf := findOne_of_nodup db oid t hu hm ht
    simp [Service.getTaskById, Controller.getTaskById, findById_of_cast db id oid hid, hf]
  · intro hnone
    have hf := (findOne_eq_none_iff db oid).mpr hnone
    have h1 : Service.getTaskById now db id = .error (notFound "Task not found") := by
      simp [Service.getTaskById, findById_of_cast db id oid hid, hf]
    refine ⟨h1, rfl, rfl, ?_⟩
    simp only [Controller.getTaskById, h1]
    exact errorHandler_notFound
  · intro hc
    have h1 : Service.getTaskById now db id = .error (castError id) := by
      simp [Service.getTaskById, findById_of_not_cast db id hc]
    refine ⟨h1, ?_⟩
    simp only [Controller.getTaskById, h1]
    exact errorHandler_castError id

/-- Witness for C7 (amended): a stored task is found under its id, an unused well-formed
id gives 404, and a malformed id gives 500. -/
theorem getTaskById_by_id_form_witness :
    Service.getTaskById 0 [sampleTask, sampleTask2] "64B7F3A2C9E77A0012345679" =
      .ok (Service.sanitizeTask 0 sampleTask2) ∧
    Controller.getTaskById 0 [sampleTask] "64b7f3a2c9e77a0012345679" =
      { status := 404, success := false, message := some "Task not found", data := none } ∧
    Controller.getTaskById 0 [sampleTask] "not-an-id" =
      { status := 500, success := false, message := some "Internal server error",
        data := none } :=
  ⟨(((getTaskById_by_id_form 0 [sampleTask, sampleTask2] "64B7F3A2C9E77A0012345679").1
      sampleId2 (by decide)).1 sampleTask2 (by simp) rfl (by decide)).1,
   (((getTaskById_by_id_form 0 [sampleTask] "64b7f3a2c9e77a0012345679").1
      sampleId2 (by decide)).2 (by decide)).2.2.2,
   ((getTaskById_by_id_form 0 [sampleTask] "not-an-id").2 (by decide)).2⟩

/-- What `createTask` returns when it succeeds: the collection with one document appended,
built from the payload under the generated id, and its sanitized form. -/
theorem createTask_ok_inv (env : Env) (db db' : Collection) (taskData : Body)
    (file : Option UploadedFile) (out : JsObject)
    (h : Service.createTask env db taskData file = .ok (db', out)) :
    ∃ task : Task, db' = db ++ [task] ∧ out = Service.sanitizeTask env.jsonTime task ∧
      task._id = env.newId ∧ task.status = "TODO" ∧ task.createdOn = env.now ∧
      task.linkedFile = (Service.createPayload env taskData file).linkedFile ∧
      (taskData.field "title").map jsTrim = some task.title ∧
      (taskData.field "description").map jsTrim = some task.description ∧
      newDate env.parseDate (taskData.field "deadline") = some task.deadline := by
  unfold Service.createTask at h
  cases hs : saveNew env.newId env.saveTime db (Service.createPayload env taskData file) with
  | error e => simp [hs] at h
  | ok r =>
    obtain ⟨db1, saved⟩ := r
    simp only [hs, Except.ok.injEq, Prod.mk.injEq] at h
    obtain ⟨h1, h2⟩ := h
    subst h1
    have hinv := saveNew_ok_inv _ _ _ _ _ _ hs
    exact ⟨saved, hinv.1, h2.symm, hinv.2.1, hinv.2.2.1, hinv.2.2.2.1, hinv.2.2.2.2.1,
      hinv.2.2.2.2.2.1, hinv.2.2.2.2.2.2.1, hinv.2.2.2.2.2.2.2⟩

/-- An input that meets the schema rules is created. -/
theorem createTask_ok (env : Env) (db : Collection) (taskData : Body)
    (file : Option UploadedFile) (title description deadline : String) (d : Int)
    (ht : taskData.field "title" = some title)
    (hd : taskData.field "description" = some description)
    (hdl : taskData.field "deadline" = some deadline)
    (hp : env.parseDate deadline = some d)
    (ht1 : 0 < jsLength (jsTrim title)) (ht2 : jsLength (jsTrim title) ≤ 100)
    (hd1 : 0 < jsLength (jsTrim description)) (hd2 : jsLength (jsTrim description) ≤ 500) :
    ∃ db' out, Service.createTask env db taskData file = .ok (db', out) := by
  have hs := saveNew_ok env.newId env.saveTime db (Service.createPayload env taskData file)
    title description d (by simp [Service.createPayload, ht])
    (by simp [Service.createPayload, hd])
    (by simp [Service.createPayload, hdl, newDate, hp]) rfl ht1 ht2 hd1 hd2
  simp only [Service.createTask, hs]
  exact ⟨_, _, rfl⟩

/-- C8 (counterexample): on the empty store the id `abc` names no task, yet `getTaskFile`
does not fail with the 404 kind of error: the error is a cast error without status. -/
theorem getTaskFile_malformed_id_not_404 :
    Service.getTaskFile [] "abc" = .error (castError "abc") ∧
    (castError "abc").status ≠ some 404 ∧
    (castError "abc").message ≠ "Task not found" := by
  have hc : castObjectId "abc" = none := by decide
  refine ⟨by simp [Service.getTaskFile, findById_of_not_cast [] "abc" hc], by decide, ?_⟩
  simp [castError]

/-- C8 (amended): for every id that is a well-formed ObjectId, `getTaskFile` fails exactly
when the task does not exist or exists without attachment data; the error is then the
404 kind in both cases, with message 'Task not found' in the first and 'No file attached
to this task' in the second, and nothing else differs.  A task with attachment data yields
its bytes.  In particular `getTaskFile` on a task just created without a file fails with
that 404 error. -/
theorem getTaskFile_by_id_form (db : Collection) (id : String) (oid : ObjectId)
    (hid : castObjectId id = some oid) :
    ((∃ e, Service.getTaskFile db id = .error e) ↔
      ((∀ t ∈ db, t._id ≠ oid) ∨ ∃ t, findOne db oid = some t ∧ hasFileData t = false)) ∧
    ((∀ t ∈ db, t._id ≠ oid) →
      Service.getTaskFile db id = .error (notFound "Task not found")) ∧
    (∀ t, findOne db oid = some t → hasFileData t = false →
      Service.getTaskFile db id = .error (notFound "No file attached to this task")) ∧
    (∀ t lf bytes, findOne db oid = some t → t.linkedFile = some lf → lf.data = some bytes →
      Service.getTaskFile db id =
        .ok { data := bytes, contentType := orDefault lf.contentType "application/pdf",
              filename := orDefault lf.filename "file.pdf" }) ∧
    (notFound "Task not found").status = some 404 ∧
    (notFound "No file attached to this task").status = some 404 ∧
    notFound "No file attached to this task" =
      { notFound "Task not found" with message := "No file attached to this task" } ∧
    (∀ (env : Env) (taskData : Body) (db' : Collection) (out : JsObject),
      Service.createTask env db taskData none = .ok (db', out) →
      (∀ t ∈ db, t._id ≠ env.newId) → castObjectId env.newId.hex = some env.newId →
      Service.getTaskFile db' env.newId.hex =
        .error (notFound "No file attached to this task")) := by
  have hq := findById_of_cast db id oid hid
  have hmiss : ∀ t, findOne db oid = some t → hasFileData t = false →
      Service.getTaskFile db id = .error (notFound "No file attached to this task") := by
    intro t hf hno
    unfold hasFileData at hno
    unfold Service.getTaskFile
    rw [hq]
    simp only [hf]
    cases hl : t.linkedFile with
    | none => rfl
    | some lf =>
      simp only [hl] at hno
      cases hdata : lf.data with
      | none => simp [hdata]
      | some bytes => simp [hdata] at hno
  have hnone : (∀ t ∈ db, t._id ≠ oid) →
      Service.getTaskFile db id = .error (notFound "Task not found") := by
    intro h
    have hf := (findOne_eq_none_iff db oid).mpr h
    simp [Service.getTaskFile, hq, hf]
  have hok : ∀ t lf bytes, findOne db oid = some t → t.linkedFile = some lf →
      lf.data = some bytes → Service.getTaskFile db id =
        .ok { data := bytes, contentType := orDefault lf.contentType "application/pdf",
              filename := orDefault lf.filename "file.pdf" } := by
    intro t lf bytes hf hl hdata
    simp [Service.getTaskFile, hq, hf, hl, hdata]
  refine ⟨⟨?_, ?_⟩, hnone, hmiss, hok, rfl, rfl, rfl, ?_⟩
  · rintro ⟨e, he⟩
    cases hf : findOne db oid with
    | none => exact Or.inl ((findOne_eq_none_iff db oid).mp hf)
    | some t =>
      refine Or.inr ⟨t, rfl, ?_⟩
      cases hl : t.linkedFile with
      | none => simp [hasFileData, hl]
      | some lf =>
        cases hdata : lf.data with
        | none => simp [hasFileData, hl, hdata]
        | some bytes =>
          rw [hok t lf bytes hf hl hdata] at he
          cases he
  · rintro (h | ⟨t, hf, hno⟩)
    · exact ⟨_, hnone h⟩
    · exact ⟨_, hmiss t hf hno⟩
  · intro env taskData db' out hc hfresh hwf
    obtain ⟨task, hdb, -, hid', -, -, hlf, -⟩ := createTask_ok_inv env db db' taskData none out hc
    have hlf' : task.linkedFile = none := by simpa [Service.createPayload] using hlf
    have hfind : findOne db' env.newId = some task := by
      rw [hdb, ← hid']
      exact findOne_append_fresh db task (by simpa [hid'] using hfresh)
    have hq' := findById_of_cast db' env.newId.hex env.newId hwf
    simp [Service.getTaskFile, hq', hfind, hlf']

/-- Witness for C8 (amended): under the well-formed id of a stored task without
attachment the download fails with the 404 'No file attached to this task'. -/
theorem getTaskFile_by_id_form_witness :
    castObjectId "64b7f3a2c9e77a0012345679" = some sampleId2 ∧
    Service.getTaskFile [sampleTask, sampleTask2] "64b7f3a2c9e77a0012345679" =
      .error (notFound "No file attached to this task") :=
  ⟨by decide,
   (getTaskFile_by_id_form [sampleTask, sampleTask2] "64b7f3a2c9e77a0012345679" sampleId2
      (by decide)).2.2.1 sampleTask2 (by decide) rfl⟩

/-! ## Theorems: creation -/

/-- The round trip through the store: after a successful `createTask` under a fresh,
well-formed id, `getTaskById` on that id returns the sanitized form of the record that
was created. -/
theorem getTaskById_after_createTask (env : Env) (db db' : Collection) (taskData : Body)
    (file : Option UploadedFile) (out : JsObject) (now : Int)
    (h : Service.createTask env db taskData file = .ok (db', out))
    (hfresh : ∀ t ∈ db, t._id ≠ env.newId)
    (hwf : castObjectId env.newId.hex = some env.newId) :
    Service.getTaskById now db' env.newId.hex = .ok out := by
  obtain ⟨task, hdb, hout, hid, -⟩ := createTask_ok_inv env db db' taskData file out h
  have hfind : findOne db' env.newId = some task := by
    rw [hdb, ← hid]
    exact findOne_append_fresh db task (by simpa [hid] using hfresh)
  have hq := findById_of_cast db' env.newId.hex env.newId hwf
  simp only [Service.getTaskById, hq, hfind, hout]
  rw [sanitizeTask_clock_irrelevant now env.jsonTime task]

/-- C9: for every create input that passes validation the record is created, and every
record `createTask` creates has status TODO and `createdOn` equal to the instant read at
creation; `status` and `createdOn` values supplied in the input change nothing. -/
theorem createTask_forces_status_createdOn (env : Env) (db : Collection) (taskData : Body)
    (file : Option UploadedFile) :
    (∀ (title description deadline : String) (d : Int),
      taskData.field "title" = some title →
      taskData.field "description" = some description →
      taskData.field "deadline" = some deadline →
      env.parseDate deadline = some d →
      0 < jsLength (jsTrim title) → jsLength (jsTrim title) ≤ 100 →
      0 < jsLength (jsTrim description) → jsLength (jsTrim description) ≤ 500 →
      ∃ db' out, Service.createTask env db taskData file = .ok (db', out)) ∧
    (∀ db' out, Service.createTask env db taskData file = .ok (db', out) →
      ∃ task : Task, db' = db ++ [task] ∧ out = Service.sanitizeTask env.jsonTime task ∧
        task.status = "TODO" ∧ task.createdOn = env.now ∧
        out.get "status" = some (.atom (.str "TODO")) ∧
        out.get "createdOn" = some (.atom (.date env.now))) ∧
    (∀ status createdOn : String,
      Service.createTask env db (("status", status) :: ("createdOn", createdOn) :: taskData)
        file = Service.createTask env db taskData file) := by
  refine ⟨?_, ?_, ?_⟩
  · intro title description deadline d ht hd hdl hp ht1 ht2 hd1 hd2
    exact createTask_ok env db taskData file title description deadline d ht hd hdl hp
      ht1 ht2 hd1 hd2
  · intro db' out h
    obtain ⟨task, hdb, hout, -, hst, hco, -⟩ := createTask_ok_inv env db db' taskData file out h
    refine ⟨task, hdb, hout, hst, hco, ?_, ?_⟩
    · rw [hout, (sanitizeTask_fields env.jsonTime task).2.2.2.1, hst]
    · rw [hout, (sanitizeTask_fields env.jsonTime task).2.2.2.2.1, hco]
  · intro status createdOn
    simp [Service.createTask, Service.createPayload, Body.field]

/-- Witness for C9: a valid input that also carries `status: DONE` and a `createdOn` is
created, as a TODO task whose `createdOn` is the clock's instant. -/
theorem createTask_forces_status_createdOn_witness :
    sampleBody.field "status" = some "DONE" ∧
    (∃ db' out, Service.createTask sampleEnv [] sampleBody none = .ok (db', out)) ∧
    (∀ db' out, Service.createTask sampleEnv [] sampleBody none = .ok (db', out) →
      ∃ task : Task, db' = [] ++ [task] ∧ out = Service.sanitizeTask sampleEnv.jsonTime task ∧
        task.status = "TODO" ∧ task.createdOn = sampleEnv.now ∧
        out.get "status" = some (.atom (.str "TODO")) ∧
        out.get "createdOn" = some (.atom (.date sampleEnv.now))) :=
  ⟨rfl,
   (createTask_forces_status_createdOn sampleEnv [] sampleBody none).1
      "  Study X " "Read docs" "2024-08-19" 1724025600000 rfl rfl rfl rfl
      (by decide) (by decide) (by decide) (by decide),
   (createTask_forces_status_createdOn sampleEnv [] sampleBody none).2.1⟩

/-- C10 (counterexample): a valid input whose title carries surrounding blanks is created,
and the immediate `getTaskById` on the returned id yields the title without them, which
is not the title supplied. -/
theorem createTask_roundtrip_title_differs :
    sampleBody.field "title" = some "  Study X " ∧
    Service.createTask sampleEnv [] sampleBody none =
      .ok ([sampleCreated], Service.sanitizeTask 0 sampleCreated) ∧
    (Service.sanitizeTask 0 sampleCreated).get "_id" =
      some (.atom (.str "64b7f3a2c9e77a0012345678")) ∧
    Service.getTaskById 0 [sampleCreated] "64b7f3a2c9e77a0012345678" =
      .ok (Service.sanitizeTask 0 sampleCreated) ∧
    (Service.sanitizeTask 0 sampleCreated).get "title" = some (.atom (.str "Study X")) ∧
    (Service.sanitizeTask 0 sampleCreated).get "title" ≠ some (.atom (.str "  Study X ")) := by
  refine ⟨rfl, ?_, rfl, ?_, rfl, by decide⟩
  · rfl
  · rfl

/-- C10 (amended): for every valid create input, `createTask` followed immediately by
`getTaskById` on the returned id yields a task whose title and description are the
supplied ones with leading and trailing white space removed, whose deadline is the
instant the supplied deadline denotes, and whose status is TODO. -/
theorem createTask_getTaskById_roundtrip (env : Env) (db : Collection) (taskData : Body)
    (file : Option UploadedFile) (title description deadline : String) (d now : Int)
    (ht : taskData.field "title" = some title)
    (hd : taskData.field "description" = some description)
    (hdl : taskData.field "deadline" = some deadline)
    (hp : env.parseDate deadline = some d)
    (ht1 : 0 < jsLength (jsTrim title)) (ht2 : jsLength (jsTrim title) ≤ 100)
    (hd1 : 0 < jsLength (jsTrim description)) (hd2 : jsLength (jsTrim description) ≤ 500)
    (hfresh : ∀ t ∈ db, t._id ≠ env.newId)
    (hwf : castObjectId env.newId.hex = some env.newId) :
    ∃ db' out out', Service.createTask env db taskData file = .ok (db', out) ∧
      out.get "_id" = some (.atom (.str env.newId.hex)) ∧
      Service.getTaskById now db' env.newId.hex = .ok out' ∧
      out'.get "title" = some (.atom (.str (jsTrim title))) ∧
      out'.get "description" = some (.atom (.str (jsTrim description))) ∧
      out'.get "deadline" = some (.atom (.date d)) ∧
      out'.get "status" = some (.atom (.str "TODO")) := by
  obtain ⟨db', out, hc⟩ := createTask_ok env db taskData file title description deadline d
    ht hd hdl hp ht1 ht2 hd1 hd2
  obtain ⟨task, -, hout, hid, hst, -, -, htt, hdd, hdate⟩ :=
    createTask_ok_inv env db db' taskData file out hc
  have hget := getTaskById_after_createTask env db db' taskData file out now hc hfresh hwf
  have hf := sanitizeTask_fields env.jsonTime task
  rw [ht] at htt
  rw [hd] at hdd
  rw [hdl] at hdate
  simp only [Option.map_some', Option.some.injEq] at htt hdd
  simp only [newDate, hp, Option.some.injEq] at hdate
  refine ⟨db', out, out, hc, ?_, hget, ?_, ?_, ?_, ?_⟩
  · rw [hout, hf.1, hid]
  · rw [hout, hf.2.1, htt]
  · rw [hout, hf.2.2.1, hdd]
  · rw [hout, hf.2.2.2.2.2, hdate]
  · rw [hout, hf.2.2.2.1, hst]

/-- Witness for C10 (amended): the sample request against a store that holds another
task. -/
theorem createTask_getTaskById_roundtrip_witness :
    ∃ db' out out', Service.createTask sampleEnv [sampleTask2] sampleBody none = .ok (db', out) ∧
      out.get "_id" = some (.atom (.str sampleEnv.newId.hex)) ∧
      Service.getTaskById 5 db' sampleEnv.newId.hex = .ok out' ∧
      out'.get "title" = some (.atom (.str (jsTrim "  Study X "))) ∧
      out'.get "description" = some (.atom (.str (jsTrim "Read docs"))) ∧
      out'.get "deadline" = some (.atom (.date 1724025600000)) ∧
      out'.get "status" = some (.atom (.str "TODO")) :=
  createTask_getTaskById_roundtrip sampleEnv [sampleTask2] sampleBody none
    "  Study X " "Read docs" "2024-08-19" 1724025600000 5 rfl rfl rfl rfl
    (by decide) (by decide) (by decide) (by decide) (by decide) (by decide)

/-! ## Lemmas: writing back, deleting and validation -/

/-- After a write-back the lookup under the document's id finds the new document. -/
theorem findOne_replaceOne_same (db : Collection) (oid : ObjectId) (old doc : Task)
    (hold : findOne db oid = some old) (hdoc : doc._id = oid) :
    findOne (replaceOne db doc) oid = some doc := by
  induction db with
  | nil => simp [findOne] at hold
  | cons a rest ih =>
    by_cases ha : a._id = oid
    · simp [replaceOne, findOne, ha, hdoc]
    · have hne : ¬ a._id = doc._id := by rw [hdoc]; exact ha
      have hrest : findOne rest oid = some old := by
        simpa [findOne, ha] using hold
      have := ih hrest
      simpa [replaceOne, findOne, ha, hne] using this

/-- A write-back does not touch the lookup under another id. -/
theorem findOne_replaceOne_other (db : Collection) (oid : ObjectId) (doc : Task)
    (hne : doc._id ≠ oid) : findOne (replaceOne db doc) oid = findOne db oid := by
  induction db with
  | nil => simp [replaceOne]
  | cons a rest ih =>
    by_cases ha : a._id = doc._id
    · have h1 : ¬ a._id = oid := by rw [ha]; exact hne
      simp [replaceOne, findOne, ha, hne, h1]
    · by_cases hb : a._id = oid
      · have h2 : ¬ oid = doc._id := fun h => hne h.symm
        simp [replaceOne, findOne, ha, hb, h2]
      · have := ih
        simpa [replaceOne, findOne, ha, hb] using this

/-- Writing back the document the lookup found changes nothing. -/
theorem replaceOne_found (db : Collection) (oid : ObjectId) (old : Task)
    (hold : findOne db oid = some old) : replaceOne db old = db := by
  induction db with
  | nil => simp [replaceOne]
  | cons a rest ih =>
    by_cases ha : a._id = oid
    · have hao : a = old := by simpa [findOne, ha] using hold
      subst hao
      simp [replaceOne]
    · have hrest : findOne rest oid = some old := by
        simpa [findOne, ha] using hold
      have hid : old._id = oid := (findOne_some rest oid old hrest).2
      have hne : ¬ a._id = old._id := by rw [hid]; exact ha
      simp [replaceOne, hne, ih hrest]

/-- When ids are unique, no document with the id is left after `deleteOne`. -/
theorem findOne_deleteOne_same (db : Collection) (oid : ObjectId)
    (hu : (db.map Task._id).Nodup) : findOne (deleteOne db oid) oid = none := by
  induction db with
  | nil => simp [deleteOne, findOne]
  | cons a rest ih =>
    simp only [List.map_cons, List.nodup_cons, List.mem_map, not_exists, not_and] at hu
    by_cases ha : a._id = oid
    · simp only [deleteOne, ha, if_true]
      rw [findOne_eq_none_iff]
      intro t ht hto
      exact hu.1 t ht (by rw [hto, ha])
    · have := ih hu.2
      simpa [deleteOne, findOne, ha] using this

/-- The lookup under another id is the same after `deleteOne`. -/
theorem findOne_deleteOne_other (db : Collection) (oid oid' : ObjectId) (hne : oid' ≠ oid) :
    findOne (deleteOne db oid) oid' = findOne db oid' := by
  induction db with
  | nil => simp [deleteOne]
  | cons a rest ih =>
    by_cases ha : a._id = oid
    · have h1 : ¬ oid = oid' := fun h => hne h.symm
      simp [deleteOne, findOne, ha, h1]
    · by_cases hb : a._id = oid'
      · simp [deleteOne, findOne, ha, hb, hne]
      · have := ih
        simpa [deleteOne, findOne, ha, hb] using this

/-- The documents with another id stay in the collection after `deleteOne`, and nothing
is added. -/
theorem mem_deleteOne (db : Collection) (oid : ObjectId) (t : Task) :
    (t ∈ db → t._id ≠ oid → t ∈ deleteOne db oid) ∧ (t ∈ deleteOne db oid → t ∈ db) := by
  induction db with
  | nil => simp [deleteOne]
  | cons a rest ih =>
    by_cases ha : a._id = oid
    · constructor
      · intro hm hne
        rcases List.mem_cons.mp hm with h | h
        · subst h
          exact absurd ha hne
        · simpa [deleteOne, ha] using h
      · intro hm
        have : t ∈ rest := by simpa [deleteOne, ha] using hm
        exact List.mem_cons_of_mem _ this
    · constructor
      · intro hm hne
        rcases List.mem_cons.mp hm with h | h
        · subst h
          simp [deleteOne, ha]
        · have := ih.1 h hne
          simp [deleteOne, ha, this]
      · intro hm
        have hm' : t = a ∨ t ∈ deleteOne rest oid := by simpa [deleteOne, ha] using hm
        rcases hm' with h | h
        · subst h
          exact List.mem_cons_self _ _
        · exact List.mem_cons_of_mem _ (ih.2 h)

/-- The text of a valid path passes its validators. -/
theorem titleError_none (s : String) (h1 : 0 < jsLength s) (h2 : jsLength s ≤ 100) :
    titleError (some s) = none := by
  simp [titleError, Nat.ne_of_gt h1, Nat.not_lt.mpr h2]

/-- The text of a valid path passes its validators. -/
theorem descriptionError_none (s : String) (h1 : 0 < jsLength s) (h2 : jsLength s ≤ 500) :
    descriptionError (some s) = none := by
  simp [descriptionError, Nat.ne_of_gt h1, Nat.not_lt.mpr h2]

/-- The possible outcomes of the validators of `title`. -/
theorem titleError_cases (t : Option String) :
    titleError t = none ∨ titleError t = some "Title is required" ∨
      titleError t = some "Title cannot exceed 100 characters" := by
  unfold titleError
  split
  · simp
  · split_ifs <;> simp

/-- The possible outcomes of the validators of `description`. -/
theorem descriptionError_cases (t : Option String) :
    descriptionError t = none ∨ descriptionError t = some "Description is required" ∨
      descriptionError t = some "Description cannot exceed 500 characters" := by
  unfold descriptionError
  split
  · simp
  · split_ifs <;> simp

/-- The possible outcomes of casting the deadline. -/
theorem deadlineError_cases (d : JsDate) :
    deadlineError d = none ∨ deadlineError d =
      some "Cast to date failed for value \"Invalid Date\" (type Date) at path \"deadline\"" := by
  cases d <;> simp [deadlineError]

/-- What a successful `saveExisting` wrote: the document with the given values, every other
path as before except `updatedAt`, which is as before or the instant of the save. -/
theorem saveExisting_ok_inv (ts : Int) (db db' : Collection) (task saved : Task)
    (title description status : String) (deadline : JsDate) (linkedFile : Option LinkedFile)
    (h : saveExisting ts db task title description status deadline linkedFile =
      .ok (db', saved)) :
    db' = replaceOne db saved ∧ saved._id = task._id ∧ saved.title = title ∧
    saved.description = description ∧ saved.status = status ∧
    deadline = some saved.deadline ∧ saved.linkedFile = linkedFile ∧
    saved.createdOn = task.createdOn ∧ saved.createdAt = task.createdAt ∧
    saved.__v = task.__v ∧
    ((saved = task ∧
        { task with title := title, description := description, status := status,
                    deadline := saved.deadline, linkedFile := linkedFile } = task) ∨
      (saved.updatedAt = ts ∧
        { task with title := title, description := description, status := status,
                    deadline := saved.deadline, linkedFile := linkedFile } ≠ task ∧
        saved = { task with title := title, description := description, status := status,
                            deadline := saved.deadline, linkedFile := linkedFile,
                            updatedAt := ts })) := by
  unfold saveExisting at h
  split at h
  · next dl hv =>
    simp only [Except.ok.injEq, Prod.mk.injEq] at h
    obtain ⟨h1, h2⟩ := h
    split_ifs at h1 h2 with he
    · subst h2
      have hf := congrArg Task.title he
      have hd := congrArg Task.description he
      have hs := congrArg Task.status he
      have hdl := congrArg Task.deadline he
      have hl := congrArg Task.linkedFile he
      simp only at hf hd hs hdl hl
      refine ⟨h1.symm, rfl, hf.symm, hd.symm, hs.symm, by rw [hdl], hl.symm, rfl, rfl, rfl,
        Or.inl ⟨rfl, ?_⟩⟩
      rw [← hdl]
      exact he
    · subst h2
      exact ⟨h1.symm, rfl, rfl, rfl, rfl, rfl, rfl, rfl, rfl, rfl, Or.inr ⟨rfl, he, rfl⟩⟩
  · simp at h

/-- Values that meet the schema are saved. -/
theorem saveExisting_ok (ts : Int) (db : Collection) (task : Task)
    (title description status : String) (dl : Int) (linkedFile : Option LinkedFile)
    (ht1 : 0 < jsLength title) (ht2 : jsLength title ≤ 100)
    (hd1 : 0 < jsLength description) (hd2 : jsLength description ≤ 500)
    (hs : status = "TODO" ∨ status = "DONE") :
    ∃ db' saved, saveExisting ts db task title description status (some dl) linkedFile =
      .ok (db', saved) := by
  have e1 := titleError_none title ht1 ht2
  have e2 := descriptionError_none description hd1 hd2
  have e3 : statusError status = none := by simp [statusError, hs]
  simp [saveExisting, validationErrors, e1, e2, e3, deadlineError, pathError]

/-- Every error of `createTask` is the validation error of the document it built. -/
theorem createTask_error_inv (env : Env) (db : Collection) (taskData : Body)
    (file : Option UploadedFile) (e : JsError)
    (h : Service.createTask env db taskData file = .error e) :
    e = validationError (validationErrors ((taskData.field "title").map jsTrim)
      ((taskData.field "description").map jsTrim) "TODO"
      (newDate env.parseDate (taskData.field "deadline"))) := by
  unfold Service.createTask at h
  cases hs : saveNew env.newId env.saveTime db (Service.createPayload env taskData file) with
  | ok r => simp [hs] at h
  | error e' =>
    simp only [hs, Except.error.injEq] at h
    subst h
    unfold saveNew at hs
    simp only at hs
    split at hs
    · simp at hs
    · simp only [Except.error.injEq] at hs
      rw [← hs]
      rfl

/-- The controller's answer to a validation error of `createTask` is never the fixed
message of the presence check. -/
theorem onServiceError_validation_ne (title description : Option String) (deadline : JsDate) :
    (onServiceError (validationError
      (validationErrors title description "TODO" deadline))).message ≠
      some "title, description and deadline are all required" := by
  rcases titleError_cases title with h1 | h1 | h1 <;>
  rcases descriptionError_cases description with h2 | h2 | h2 <;>
  rcases deadlineError_cases deadline with h3 | h3 <;>
  simp only [validationErrors, h1, h2, h3, pathError, statusError, onServiceError,
    validationError] <;> decide

/-! ## Theorems: the create controller -/

/-- C11: the create controller answers 400 with success=false and the fixed message
'title, description and deadline are all required' exactly when at least one of title,
description, deadline is absent or empty in the request body; in that case the answer and
the store are the same whatever the service method would do (it is not called), and the
store is unchanged. -/
theorem createTask_presence_check (env : Env) (db : Collection) (body : Body)
    (file : Option UploadedFile) :
    ((Controller.createTask env db body file).1 =
        { status := 400, success := false,
          message := some "title, description and deadline are all required", data := none } ↔
      ((body.field "title" = none ∨ body.field "title" = some "") ∨
       (body.field "description" = none ∨ body.field "description" = some "") ∨
       (body.field "deadline" = none ∨ body.field "deadline" = some ""))) ∧
    (((body.field "title" = none ∨ body.field "title" = some "") ∨
       (body.field "description" = none ∨ body.field "description" = some "") ∨
       (body.field "deadline" = none ∨ body.field "deadline" = some "")) →
      ∀ service : ServiceCall, Controller.createTaskWith service db body file =
        ({ status := 400, success := false,
           message := some "title, description and deadline are all required",
           data := none }, db)) := by
  have htruthy : ∀ x : Option String, truthy x = false ↔ (x = none ∨ x = some "") := by
    intro x
    cases x with
    | none => simp [truthy]
    | some v => simp [truthy]
  have hmissing : ((body.field "title" = none ∨ body.field "title" = some "") ∨
       (body.field "description" = none ∨ body.field "description" = some "") ∨
       (body.field "deadline" = none ∨ body.field "deadline" = some "")) ↔
      ((!truthy (body.field "title") || !truthy (body.field "description") ||
        !truthy (body.field "deadline")) = true) := by
    simp only [← htruthy, Bool.or_eq_true, Bool.not_eq_true', or_assoc]
  have hwith : ((body.field "title" = none ∨ body.field "title" = some "") ∨
       (body.field "description" = none ∨ body.field "description" = some "") ∨
       (body.field "deadline" = none ∨ body.field "deadline" = some "")) →
      ∀ service : ServiceCall, Controller.createTaskWith service db body file =
        ({ status := 400, success := false,
           message := some "title, description and deadline are all required",
           data := none }, db) := by
    intro hm service
    unfold Controller.createTaskWith
    rw [if_pos (hmissing.mp hm)]
  refine ⟨⟨?_, fun hm => ?_⟩, hwith⟩
  · intro hresp
    by_contra hm
    have hb : ¬ ((!truthy (body.field "title") || !truthy (body.field "description") ||
        !truthy (body.field "deadline")) = true) := fun h => hm (hmissing.mpr h)
    unfold Controller.createTask Controller.createTaskWith at hresp
    rw [if_neg hb] at hresp
    cases hs : Service.createTask env db body file with
    | ok r =>
      simp only [hs] at hresp
      have := congrArg HttpResponse.status hresp
      simp at this
    | error e =>
      simp only [hs] at hresp
      have hmsg := congrArg HttpResponse.message hresp
      rw [createTask_error_inv env db body file e hs] at hmsg
      exact onServiceError_validation_ne _ _ _ hmsg
  · have := hwith hm (Service.createTask env)
    simp only [Controller.createTask, this]

/-- Witness for C11: a body without description is answered with the fixed 400 message by
a controller whose service method would have stored a task. -/
theorem createTask_presence_check_witness :
    Controller.createTaskWith (fun _ _ _ => .ok ([sampleTask], [])) []
        [("title", "Study X"), ("deadline", "2024-08-19")] none =
      ({ status := 400, success := false,
         message := some "title, description and deadline are all required",
         data := none }, []) :=
  (createTask_presence_check sampleEnv [] [("title", "Study X"), ("deadline", "2024-08-19")]
    none).2 (Or.inr (Or.inl (Or.inl rfl))) (fun _ _ _ => .ok ([sampleTask], []))

/-! ## Lemmas: update and mark-as-done -/

/-- What a successful `updateTask` on the stored task `old` wrote: the record `new`, which
the lookup finds afterwards, holds the assigned values and otherwise the paths of `old`. -/
theorem updateTask_ok_inv (env : Env) (db db' : Collection) (id : String) (oid : ObjectId)
    (taskData : Body) (file : Option UploadedFile) (old : Task) (out : JsObject)
    (hid : castObjectId id = some oid) (hold : findOne db oid = some old)
    (h : Service.updateTask env db id taskData file = .ok (db', out)) :
    ∃ new : Task, findOne db' oid = some new ∧ db' = replaceOne db new ∧
      out = Service.sanitizeTask env.jsonTime new ∧ new._id = old._id ∧
      new.title = Service.assignText (taskData.field "title") old.title ∧
      new.description = Service.assignText (taskData.field "description") old.description ∧
      new.status = Service.assignStatus (taskData.field "status") old.status ∧
      Service.assignDeadline env.parseDate (taskData.field "deadline") old.deadline =
        some new.deadline ∧
      new.linkedFile = Service.assignFile file old.linkedFile ∧
      new.createdOn = old.createdOn ∧ new.createdAt = old.createdAt ∧
      (new = old ∨ new.updatedAt = env.saveTime) := by
  unfold Service.updateTask at h
  rw [findById_of_cast db id oid hid, hold] at h
  simp only at h
  cases hs : saveExisting env.saveTime db old
      (Service.assignText (taskData.field "title") old.title)
      (Service.assignText (taskData.field "description") old.description)
      (Service.assignStatus (taskData.field "status") old.status)
      (Service.assignDeadline env.parseDate (taskData.field "deadline") old.deadline)
      (Service.assignFile file old.linkedFile) with
  | error e => simp [hs] at h
  | ok r =>
    obtain ⟨db1, saved⟩ := r
    simp only [hs, Except.ok.injEq, Prod.mk.injEq] at h
    obtain ⟨h1, h2⟩ := h
    subst h1
    obtain ⟨hdb, hsid, ht, hd, hst, hdl, hlf, hco, hca, -, hupd⟩ :=
      saveExisting_ok_inv _ _ _ _ _ _ _ _ _ _ hs
    have holdid : old._id = oid := (findOne_some db oid old hold).2
    refine ⟨saved, ?_, hdb, h2.symm, hsid, ht, hd, hst, hdl, hlf, hco, hca, ?_⟩
    · rw [hdb]
      exact findOne_replaceOne_same db oid old saved hold (by rw [hsid, holdid])
    · rcases hupd with hu | hu
      · exact Or.inl hu.1
      · exact Or.inr hu.1

/-- An update is carried out when the values it leaves on the stored task meet the
schema. -/
theorem updateTask_ok (env : Env) (db : Collection) (id : String) (oid : ObjectId)
    (taskData : Body) (file : Option UploadedFile) (old : Task) (dl : Int)
    (hid : castObjectId id = some oid) (hold : findOne db oid = some old)
    (ht1 : 0 < jsLength (Service.assignText (taskData.field "title") old.title))
    (ht2 : jsLength (Service.assignText (taskData.field "title") old.title) ≤ 100)
    (hd1 : 0 < jsLength (Service.assignText (taskData.field "description") old.description))
    (hd2 : jsLength (Service.assignText (taskData.field "description") old.description) ≤ 500)
    (hs : Service.assignStatus (taskData.field "status") old.status = "TODO" ∨
      Service.assignStatus (taskData.field "status") old.status = "DONE")
    (hdl : Service.assignDeadline env.parseDate (taskData.field "deadline") old.deadline =
      some dl) :
    ∃ db' out, Service.updateTask env db id taskData file = .ok (db', out) := by
  obtain ⟨db1, saved, hsave⟩ := saveExisting_ok env.saveTime db old _ _ _ dl
    (Service.assignFile file old.linkedFile) ht1 ht2 hd1 hd2 hs
  unfold Service.updateTask
  rw [findById_of_cast db id oid hid, hold]
  simp only [hdl, hsave]
  exact ⟨_, _, rfl⟩

/-- What a successful `markAsDone` on the stored task `old` wrote. -/
theorem markAsDone_ok_inv (env : Env) (db db' : Collection) (id : String) (oid : ObjectId)
    (old : Task) (out : JsObject)
    (hid : castObjectId id = some oid) (hold : findOne db oid = some old)
    (h : Service.markAsDone env db id = .ok (db', out)) :
    ∃ new : Task, findOne db' oid = some new ∧ db' = replaceOne db new ∧
      out = Service.sanitizeTask env.jsonTime new ∧
      ((old.status = "DONE" ∧ new = old) ∨
        (old.status ≠ "DONE" ∧
          new = { old with status := "DONE", updatedAt := env.saveTime })) := by
  unfold Service.markAsDone at h
  rw [findById_of_cast db id oid hid, hold] at h
  simp only at h
  cases hs : saveExisting env.saveTime db old old.title old.description "DONE"
      (some old.deadline) old.linkedFile with
  | error e => simp [hs] at h
  | ok r =>
    obtain ⟨db1, saved⟩ := r
    simp only [hs, Except.ok.injEq, Prod.mk.injEq] at h
    obtain ⟨h1, h2⟩ := h
    subst h1
    obtain ⟨hdb, hsid, -, -, hst, hdl, -, -, -, -, hupd⟩ :=
      saveExisting_ok_inv _ _ _ _ _ _ _ _ _ _ hs
    have holdid : old._id = oid := (findOne_some db oid old hold).2
    have hdl' : saved.deadline = old.deadline := by
      simpa using hdl.symm
    refine ⟨saved, ?_, hdb, h2.symm, ?_⟩
    · rw [hdb]
      exact findOne_replaceOne_same db oid old saved hold (by rw [hsid, holdid])
    · rw [hdl'] at hupd
      rcases hupd with ⟨hu, he⟩ | ⟨-, hne, hu⟩
      · left
        have := congrArg Task.status he
        exact ⟨this.symm, hu⟩
      · right
        refine ⟨?_, hu⟩
        intro hdone
        apply hne
        rw [← hdone]

/-- The status of a stored task with valid text paths can be set to DONE. -/
theorem markAsDone_ok (env : Env) (db : Collection) (id : String) (oid : ObjectId) (old : Task)
    (hid : castObjectId id = some oid) (hold : findOne db oid = some old)
    (hv : old.textValid) :
    ∃ db' out, Service.markAsDone env db id = .ok (db', out) := by
  obtain ⟨db1, saved, hsave⟩ := saveExisting_ok env.saveTime db old old.title old.description
    "DONE" old.deadline old.linkedFile hv.1 hv.2.1 hv.2.2.1 hv.2.2.2 (Or.inr rfl)
  unfold Service.markAsDone
  rw [findById_of_cast db id oid hid, hold]
  simp only [hsave]
  exact ⟨_, _, rfl⟩

/-- A falsy body field leaves a text path as it is. -/
theorem assignText_falsy (field : Option String) (current : String)
    (h : field = none ∨ field = some "") : Service.assignText field current = current := by
  rcases h with h | h <;> simp [Service.assignText, h]

/-- A truthy body field is assigned, trimmed. -/
theorem assignText_truthy (t current : String) (h : t ≠ "") :
    Service.assignText (some t) current = jsTrim t := by
  simp [Service.assignText, h]

/-! ## Theorems: update -/

/-- C12: for an existing task and any update input, each of title, description, deadline
and status that is absent or empty in the input, and the attachment when no file is
supplied, has the same value in the stored record after `updateTask` as before (a failed
update writes nothing); in particular an update supplying only `status: 'DONE'` sets the
status to DONE and leaves title, description, deadline and attachment unchanged. -/
theorem updateTask_frame (env : Env) (db : Collection) (id : String) (oid : ObjectId)
    (taskData : Body) (file : Option UploadedFile) (old : Task)
    (hid : castObjectId id = some oid) (hold : findOne db oid = some old) :
    (∀ db' out, Service.updateTask env db id taskData file = .ok (db', out) →
      ∃ new : Task, findOne db' oid = some new ∧
        out = Service.sanitizeTask env.jsonTime new ∧
        ((taskData.field "title" = none ∨ taskData.field "title" = some "") →
          new.title = old.title) ∧
        ((taskData.field "description" = none ∨ taskData.field "description" = some "") →
          new.description = old.description) ∧
        ((taskData.field "deadline" = none ∨ taskData.field "deadline" = some "") →
          new.deadline = old.deadline) ∧
        ((taskData.field "status" = none ∨ taskData.field "status" = some "") →
          new.status = old.status) ∧
        (file = none → new.linkedFile = old.linkedFile)) ∧
    (∀ e, Service.updateTask env db id taskData file = .error e →
      storeAfter db (Service.updateTask env db id taskData file) = db) ∧
    (old.meetsSchema →
      ∃ db' new, Service.updateTask env db id [("status", "DONE")] none =
          .ok (db', Service.sanitizeTask env.jsonTime new) ∧
        findOne db' oid = some new ∧ new.status = "DONE" ∧ new.title = old.title ∧
        new.description = old.description ∧ new.deadline = old.deadline ∧
        new.linkedFile = old.linkedFile) := by
  refine ⟨?_, ?_, ?_⟩
  · intro db' out h
    obtain ⟨new, hfind, -, hout, -, ht, hd, hst, hdl, hlf, -⟩ :=
      updateTask_ok_inv env db db' id oid taskData file old out hid hold h
    refine ⟨new, hfind, hout, ?_, ?_, ?_, ?_, ?_⟩
    · intro hf
      rw [ht, assignText_falsy _ _ hf]
    · intro hf
      rw [hd, assignText_falsy _ _ hf]
    · intro hf
      have : Service.assignDeadline env.parseDate (taskData.field "deadline") old.deadline =
          some old.deadline := by
        rcases hf with hf | hf <;> simp [Service.assignDeadline, hf]
      rw [this] at hdl
      exact (Option.some.inj hdl).symm
    · intro hf
      rw [hst]
      rcases hf with hf | hf <;> simp [Service.assignStatus, hf]
    · intro hf
      rw [hlf, hf]
      rfl
  · intro e h
    rw [h]
    rfl
  · intro hv
    obtain ⟨db', out, h⟩ := updateTask_ok env db id oid [("status", "DONE")] none old
      old.deadline hid hold
      (by simpa [Body.field, Service.assignText] using hv.1.1)
      (by simpa [Body.field, Service.assignText] using hv.1.2.1)
      (by simpa [Body.field, Service.assignText] using hv.1.2.2.1)
      (by simpa [Body.field, Service.assignText] using hv.1.2.2.2)
      (by simp [Body.field, Service.assignStatus])
      (by simp [Body.field, Service.assignDeadline])
    obtain ⟨new, hfind, -, hout, -, ht, hd, hst, hdl, hlf, -⟩ :=
      updateTask_ok_inv env db db' id oid [("status", "DONE")] none old out hid hold h
    refine ⟨db', new, by rw [h, hout], hfind, ?_, ?_, ?_, ?_, ?_⟩
    · simpa [Body.field, Service.assignStatus] using hst
    · simpa [Body.field, Service.assignText] using ht
    · simpa [Body.field, Service.assignText] using hd
    · have : some old.deadline = some new.deadline := by
        simpa [Body.field, Service.assignDeadline] using hdl
      exact (Option.some.inj this).symm
    · simpa [Service.assignFile] using hlf

/-- Witness for C12: marking the seeded task DONE through `updateTask` keeps its title,
description, deadline and attachment. -/
theorem updateTask_frame_witness :
    ∃ db' new, Service.updateTask sampleEnv [sampleTask, sampleTask2]
          "64b7f3a2c9e77a0012345678" [("status", "DONE")] none =
          .ok (db', Service.sanitizeTask sampleEnv.jsonTime new) ∧
        findOne db' sampleId = some new ∧ new.status = "DONE" ∧
        new.title = sampleTask.title ∧ new.description = sampleTask.description ∧
        new.deadline = sampleTask.deadline ∧ new.linkedFile = sampleTask.linkedFile :=
  (updateTask_frame sampleEnv [sampleTask, sampleTask2] "64b7f3a2c9e77a0012345678" sampleId
    [("status", "DONE")] none sampleTask (by decide) (by decide)).2.2 (by decide)

/-- C13: for an existing task, an update whose status is any value other than 'TODO' or
'DONE' has the same outcome as the update without a status: it does not fail because of
the status, the stored status is unchanged and the other supplied fields are applied;
when the supplied status is 'TODO' or 'DONE' the stored status becomes that value. -/
theorem updateTask_status_filter (env : Env) (db : Collection) (id : String) (oid : ObjectId)
    (taskData : Body) (file : Option UploadedFile) (old : Task) (s : String)
    (hid : castObjectId id = some oid) (hold : findOne db oid = some old) :
    ((s ≠ "TODO" ∧ s ≠ "DONE") →
      (taskData.field "status" = none →
        Service.updateTask env db id (("status", s) :: taskData) file =
          Service.updateTask env db id taskData file) ∧
      (∀ db' out, Service.updateTask env db id (("status", s) :: taskData) file =
          .ok (db', out) →
        ∃ new : Task, findOne db' oid = some new ∧ new.status = old.status ∧
          (∀ t, taskData.field "title" = some t → t ≠ "" → new.title = jsTrim t) ∧
          (∀ t, taskData.field "description" = some t → t ≠ "" →
            new.description = jsTrim t) ∧
          (∀ t, taskData.field "deadline" = some t → t ≠ "" →
            env.parseDate t = some new.deadline) ∧
          (∀ f, file = some f → new.linkedFile = some (linkedFileOf f))) ∧
      (old.meetsSchema →
        ∃ db' out, Service.updateTask env db id [("status", s)] none = .ok (db', out))) ∧
    ((s = "TODO" ∨ s = "DONE") →
      (∀ db' out, Service.updateTask env db id (("status", s) :: taskData) file =
          .ok (db', out) →
        ∃ new : Task, findOne db' oid = some new ∧ new.status = s) ∧
      (old.textValid →
        ∃ db' new, Service.updateTask env db id [("status", s)] none =
            .ok (db', Service.sanitizeTask env.jsonTime new) ∧
          findOne db' oid = some new ∧ new.status = s)) := by
  refine ⟨?_, ?_⟩
  · rintro ⟨h1, h2⟩
    have hassign : ∀ cur, Service.assignStatus (some s) cur = cur := by
      intro cur
      simp [Service.assignStatus, h1, h2]
    refine ⟨?_, ?_, ?_⟩
    · intro hnone
      simp [Service.updateTask, Body.field, Service.assignStatus, h1, h2, hnone]
    · intro db' out h
      obtain ⟨new, hfind, -, -, -, ht, hd, hst, hdl, hlf, -⟩ :=
        updateTask_ok_inv env db db' id oid _ file old out hid hold h
      refine ⟨new, hfind, ?_, ?_, ?_, ?_, ?_⟩
      · simpa [Body.field, hassign] using hst
      · intro t htt hne
        have : Body.field (("status", s) :: taskData) "title" = some t := by
          simpa [Body.field] using htt
        rw [ht, this, assignText_truthy t _ hne]
      · intro t htt hne
        have : Body.field (("status", s) :: taskData) "description" = some t := by
          simpa [Body.field] using htt
        rw [hd, this, assignText_truthy t _ hne]
      · intro t htt hne
        have : Body.field (("status", s) :: taskData) "deadline" = some t := by
          simpa [Body.field] using htt
        rw [this] at hdl
        simpa [Service.assignDeadline, hne] using hdl
      · intro f hf
        rw [hlf, hf]
        rfl
    · intro hv
      exact updateTask_ok env db id oid [("status", s)] none old old.deadline hid hold
        (by simpa [Body.field, Service.assignText] using hv.1.1)
        (by simpa [Body.field, Service.assignText] using hv.1.2.1)
        (by simpa [Body.field, Service.assignText] using hv.1.2.2.1)
        (by simpa [Body.field, Service.assignText] using hv.1.2.2.2)
        (by simpa [Body.field, hassign] using hv.2)
        (by simp [Body.field, Service.assignDeadline])
  · intro hs
    have hne : s ≠ "" := by
      rcases hs with hs | hs <;> rw [hs] <;> decide
    have hassign : ∀ cur, Service.assignStatus (some s) cur = s := by
      intro cur
      simp [Service.assignStatus, hne, hs]
    refine ⟨?_, ?_⟩
    · intro db' out h
      obtain ⟨new, hfind, -, -, -, -, -, hst, -⟩ :=
        updateTask_ok_inv env db db' id oid _ file old out hid hold h
      exact ⟨new, hfind, by simpa [Body.field, hassign] using hst⟩
    · intro hv
      obtain ⟨db', out, h⟩ := updateTask_ok env db id oid [("status", s)] none old
        old.deadline hid hold
        (by simpa [Body.field, Service.assignText] using hv.1)
        (by simpa [Body.field, Service.assignText] using hv.2.1)
        (by simpa [Body.field, Service.assignText] using hv.2.2.1)
        (by simpa [Body.field, Service.assignText] using hv.2.2.2)
        (by simpa [Body.field, hassign] using hs)
        (by simp [Body.field, Service.assignDeadline])
      obtain ⟨new, hfind, -, hout, -, -, -, hst, -⟩ :=
        updateTask_ok_inv env db db' id oid [("status", s)] none old out hid hold h
      exact ⟨db', new, by rw [h, hout], hfind, by simpa [Body.field, hassign] using hst⟩

/-- Witness for C13: the status `ARCHIVED` is ignored while the title of the same update
is applied, and the status `DONE` is stored. -/
theorem updateTask_status_filter_witness :
    Service.updateTask sampleEnv [sampleTask] "64b7f3a2c9e77a0012345678"
        (("status", "ARCHIVED") :: [("title", "New title")]) none =
      Service.updateTask sampleEnv [sampleTask] "64b7f3a2c9e77a0012345678"
        [("title", "New title")] none ∧
    ∃ db' new, Service.updateTask sampleEnv [sampleTask] "64b7f3a2c9e77a0012345678"
          [("status", "DONE")] none = .ok (db', Service.sanitizeTask sampleEnv.jsonTime new) ∧
        findOne db' sampleId = some new ∧ new.status = "DONE" :=
  ⟨((updateTask_status_filter sampleEnv [sampleTask] "64b7f3a2c9e77a0012345678" sampleId
      [("title", "New title")] none sampleTask "ARCHIVED" (by decide) (by decide)).1
      (by decide)).1 (by decide),
   ((updateTask_status_filter sampleEnv [sampleTask] "64b7f3a2c9e77a0012345678" sampleId
      [] none sampleTask "DONE" (by decide) (by decide)).2 (Or.inr rfl)).2 (by decide)⟩

/-! ## Theorems: attachments -/

/-- The download of a stored task whose attachment was built from the file `f`. -/
theorem getTaskFile_of_linkedFileOf (db : Collection) (id : String) (oid : ObjectId)
    (task : Task) (f : UploadedFile) (hid : castObjectId id = some oid)
    (hfind : findOne db oid = some task) (hlf : task.linkedFile = some (linkedFileOf f)) :
    Service.getTaskFile db id =
      .ok { data := f.buffer,
            contentType := if f.mimetype = "" then "application/pdf" else f.mimetype,
            filename := if f.originalname = "" then "file.pdf" else f.originalname } := by
  simp [Service.getTaskFile, findById_of_cast db id oid hid, hfind, hlf, linkedFileOf,
    orDefault]

/-- After a create or an update with the file `f` the download is built from `f` alone,
with the fallbacks of `getTaskFile` for an empty type or name. -/
theorem getTaskFile_after_upload_fallback (env : Env) (db : Collection) (id : String)
    (taskData : Body) (f : UploadedFile) :
    (∀ db' out, Service.createTask env db taskData (some f) = .ok (db', out) →
      (∀ t ∈ db, t._id ≠ env.newId) → castObjectId env.newId.hex = some env.newId →
      Service.getTaskFile db' env.newId.hex =
        .ok { data := f.buffer,
              contentType := if f.mimetype = "" then "application/pdf" else f.mimetype,
              filename := if f.originalname = "" then "file.pdf" else f.originalname }) ∧
    (∀ db' out, Service.updateTask env db id taskData (some f) = .ok (db', out) →
      Service.getTaskFile db' id =
        .ok { data := f.buffer,
              contentType := if f.mimetype = "" then "application/pdf" else f.mimetype,
              filename := if f.originalname = "" then "file.pdf" else f.originalname }) := by
  refine ⟨?_, ?_⟩
  · intro db' out h hfresh hwf
    obtain ⟨task, hdb, -, hid', -, -, hlf, -⟩ :=
      createTask_ok_inv env db db' taskData (some f) out h
    have hfind : findOne db' env.newId = some task := by
      rw [hdb, ← hid']
      exact findOne_append_fresh db task (by simpa [hid'] using hfresh)
    exact getTaskFile_of_linkedFileOf db' env.newId.hex env.newId task f hwf hfind
      (by simpa [Service.createPayload, linkedFileOf] using hlf)
  · intro db' out h
    cases hc : castObjectId id with
    | none =>
      simp [Service.updateTask, findById_of_not_cast db id hc] at h
    | some oid =>
      cases hf : findOne db oid with
      | none =>
        simp [Service.updateTask, findById_of_cast db id oid hc, hf] at h
      | some old =>
        obtain ⟨new, hfind, -, -, -, -, -, -, -, hlf, -⟩ :=
          updateTask_ok_inv env db db' id oid taskData (some f) old out hc hf h
        exact getTaskFile_of_linkedFileOf db' id oid new f hc hfind
          (by simpa [Service.assignFile] using hlf)

/-- Every file the upload middleware hands on as `req.file` has a name, has the type
'application/pdf', and carries the name and the content of the request's file part. -/
theorem uploadSingle_file (mimeOf : String → String) (part : Option RawFilePart)
    (f : UploadedFile) (h : uploadSingle mimeOf part = .ok (some f)) :
    f.originalname ≠ "" ∧ f.mimetype = "application/pdf" ∧
    ∃ raw, part = some raw ∧ f.originalname = raw.filename ∧ f.buffer = raw.content := by
  cases part with
  | none => simp [uploadSingle] at h
  | some raw =>
    by_cases hn : raw.filename = ""
    · simp [uploadSingle, hn] at h
    · by_cases ht : mimeOf raw.contentType = "application/pdf"
      · by_cases hs : fileSizeLimit ≤ raw.content.length
        · simp [uploadSingle, hn, fileFilter, describePart, ht, hs] at h
        · simp only [uploadSingle, hn, fileFilter, describePart, ht, hs, if_true, if_false,
            Except.ok.injEq, Option.some.injEq] at h
          subst h
          exact ⟨hn, rfl, raw, rfl, rfl, rfl⟩
      · simp [uploadSingle, hn, fileFilter, describePart, ht] at h

/-- C14: for every task created with a file `f`, or updated with a file `f` whatever
attachment it had before, where `f` has a name and a declared type as every file the
upload middleware delivers has, a subsequent `getTaskFile` returns exactly the bytes, the
declared content type and the original name of `f`; the answer is determined by `f`
alone, so nothing of a previous attachment remains. -/
theorem getTaskFile_returns_upload (env : Env) (db : Collection) (id : String)
    (taskData : Body) (f : UploadedFile) (hname : f.originalname ≠ "")
    (htype : f.mimetype ≠ "") :
    (∀ db' out, Service.createTask env db taskData (some f) = .ok (db', out) →
      (∀ t ∈ db, t._id ≠ env.newId) → castObjectId env.newId.hex = some env.newId →
      Service.getTaskFile db' env.newId.hex =
        .ok { data := f.buffer, contentType := f.mimetype, filename := f.originalname }) ∧
    (∀ db' out, Service.updateTask env db id taskData (some f) = .ok (db', out) →
      Service.getTaskFile db' id =
        .ok { data := f.buffer, contentType := f.mimetype, filename := f.originalname }) := by
  have h := getTaskFile_after_upload_fallback env db id taskData f
  simp only [hname, htype, if_false] at h
  exact h

/-- Witness for C14: the seeded task, which has an attachment, is updated with another
file; the download is the new file, bytes, type and name. -/
theorem getTaskFile_returns_upload_witness :
    ∃ db' out, Service.updateTask sampleEnv [sampleTask] "64b7f3a2c9e77a0012345678" []
        (some sampleUpload) = .ok (db', out) ∧
      Service.getTaskFile db' "64b7f3a2c9e77a0012345678" =
        .ok { data := [37, 80, 68, 70, 45], contentType := "application/pdf",
              filename := "plan.pdf" } :=
  ⟨_, _, rfl,
    (getTaskFile_returns_upload sampleEnv [sampleTask] "64b7f3a2c9e77a0012345678" []
      sampleUpload (by decide) (by decide)).2 _ _ rfl⟩

/-! ## Theorems: mark-as-done -/

/-- C15 (counterexample): marking the seeded TODO task as done stores a record that is not
the previous record with only the status changed: `updatedAt` has changed too. -/
theorem markAsDone_changes_updatedAt :
    ∃ db' out new, Service.markAsDone sampleEnv [sampleTask] "64b7f3a2c9e77a0012345678" =
        .ok (db', out) ∧
      findOne db' sampleId = some new ∧
      new ≠ { sampleTask with status := "DONE" } ∧
      new.updatedAt = 1723852800001 ∧ sampleTask.updatedAt = 1723766400000 :=
  ⟨_, _, _, rfl, rfl, by decide, rfl, rfl⟩

/-- C15 (amended): for every existing task, whatever its current status, `markAsDone`
returns the sanitized record with status DONE, and the stored record afterwards differs
from the one before in the status field and, when the status was not DONE before, in the
`updatedAt` timestamp only (title, description, deadline, createdOn and attachment
unchanged); applying `markAsDone` again leaves the stored record and the store as they
are. -/
theorem markAsDone_effect (env env2 : Env) (db : Collection) (id : String) (oid : ObjectId)
    (old : Task) (hid : castObjectId id = some oid) (hold : findOne db oid = some old)
    (hv : old.textValid) :
    ∃ db' new, Service.markAsDone env db id =
        .ok (db', Service.sanitizeTask env.jsonTime new) ∧
      (Service.sanitizeTask env.jsonTime new).get "status" = some (.atom (.str "DONE")) ∧
      findOne db' oid = some new ∧
      new = { old with status := "DONE", updatedAt := new.updatedAt } ∧
      (old.status = "DONE" → new = old) ∧
      (old.status ≠ "DONE" → new.updatedAt = env.saveTime) ∧
      Service.markAsDone env2 db' id = .ok (db', Service.sanitizeTask env2.jsonTime new) := by
  obtain ⟨db', out, h⟩ := markAsDone_ok env db id oid old hid hold hv
  obtain ⟨new, hfind, hdb, hout, hcase⟩ := markAsDone_ok_inv env db db' id oid old out hid hold h
  have hshape : new = { old with status := "DONE", updatedAt := new.updatedAt } := by
    rcases hcase with ⟨hdone, hn⟩ | ⟨-, hn⟩
    · rw [hn, ← hdone]
    · rw [hn]
  have hstatus : new.status = "DONE" := by rw [hshape]
  have hv' : new.textValid := by
    rw [hshape]
    exact hv
  refine ⟨db', new, by rw [h, hout], ?_, hfind, hshape, ?_, ?_, ?_⟩
  · rw [(sanitizeTask_fields env.jsonTime new).2.2.2.1, hstatus]
  · intro hdone
    rcases hcase with ⟨-, hn⟩ | ⟨hnd, -⟩
    · exact hn
    · exact absurd hdone hnd
  · intro hnd
    rcases hcase with ⟨hdone, -⟩ | ⟨-, hn⟩
    · exact absurd hdone hnd
    · rw [hn]
  · obtain ⟨db2, out2, h2⟩ := markAsDone_ok env2 db' id oid new hid hfind hv'
    obtain ⟨new2, -, hdb2, hout2, hcase2⟩ :=
      markAsDone_ok_inv env2 db' db2 id oid new out2 hid hfind h2
    have hsame : new2 = new := by
      rcases hcase2 with ⟨-, hn⟩ | ⟨hnd, -⟩
      · exact hn
      · exact absurd hstatus hnd
    rw [h2, hout2, hdb2, hsame, replaceOne_found db' oid new hfind]

/-- Witness for C15 (amended): the seeded TODO task is marked done. -/
theorem markAsDone_effect_witness :
    ∃ db' new, Service.markAsDone sampleEnv [sampleTask, sampleTask2]
          "64b7f3a2c9e77a0012345678" =
        .ok (db', Service.sanitizeTask sampleEnv.jsonTime new) ∧
      (Service.sanitizeTask sampleEnv.jsonTime new).get "status" =
        some (.atom (.str "DONE")) ∧
      findOne db' sampleId = some new ∧
      new = { sampleTask with status := "DONE", updatedAt := new.updatedAt } ∧
      (sampleTask.status = "DONE" → new = sampleTask) ∧
      (sampleTask.status ≠ "DONE" → new.updatedAt = sampleEnv.saveTime) ∧
      Service.markAsDone sampleEnv db' "64b7f3a2c9e77a0012345678" =
        .ok (db', Service.sanitizeTask sampleEnv.jsonTime new) :=
  markAsDone_effect sampleEnv sampleEnv [sampleTask, sampleTask2] "64b7f3a2c9e77a0012345678"
    sampleId sampleTask (by decide) (by decide) (by decide)

/-! ## Theorems: delete and missing tasks -/

/-- Deleting under the id of a stored task removes it. -/
theorem deleteTask_found (db : Collection) (id : String) (oid : ObjectId) (task : Task)
    (hid : castObjectId id = some oid) (hfind : findOne db oid = some task) :
    Service.deleteTask db id = .ok (deleteOne db oid, "Task deleted successfully") := by
  simp [Service.deleteTask, findByIdAndDelete, hid, hfind]

/-- Deleting under a well-formed id that no stored task has fails with NotFound. -/
theorem deleteTask_missing (db : Collection) (id : String) (oid : ObjectId)
    (hid : castObjectId id = some oid) (hfind : findOne db oid = none) :
    Service.deleteTask db id = .error (notFound "Task not found") := by
  simp [Service.deleteTask, findByIdAndDelete, hid, hfind]

/-- C16: for every store state (ids unique) and every id of an existing task,
`deleteTask(id)` succeeds; afterwards `getTaskById(id)` fails with NotFound, a second
`deleteTask(id)` fails with NotFound, and every other stored task is still stored,
unchanged, and retrievable under its id; nothing else is stored. -/
theorem deleteTask_then_lookups (now : Int) (db : Collection) (id : String) (oid : ObjectId)
    (task : Task) (hid : castObjectId id = some oid) (hmem : task ∈ db)
    (htask : task._id = oid) (hu : (db.map Task._id).Nodup) :
    ∃ db', Service.deleteTask db id = .ok (db', "Task deleted successfully") ∧
      Service.getTaskById now db' id = .error (notFound "Task not found") ∧
      Service.deleteTask db' id = .error (notFound "Task not found") ∧
      (notFound "Task not found").status = some 404 ∧
      (∀ t ∈ db, t._id ≠ oid →
        t ∈ db' ∧ findOne db' t._id = some t ∧
        (castObjectId t._id.hex = some t._id →
          Service.getTaskById now db' t._id.hex = .ok (Service.sanitizeTask now t))) ∧
      (∀ t ∈ db', t ∈ db ∧ t._id ≠ oid) := by
  have hfind : findOne db oid = some task := findOne_of_nodup db oid task hu hmem htask
  have hgone : findOne (deleteOne db oid) oid = none := findOne_deleteOne_same db oid hu
  refine ⟨deleteOne db oid, deleteTask_found db id oid task hid hfind, ?_,
    deleteTask_missing _ id oid hid hgone, rfl, ?_, ?_⟩
  · simp [Service.getTaskById, findById_of_cast _ id oid hid, hgone]
  · intro t ht hne
    have hft : findOne (deleteOne db oid) t._id = some t := by
      rw [findOne_deleteOne_other db oid t._id hne]
      exact findOne_of_nodup db t._id t hu ht rfl
    refine ⟨(mem_deleteOne db oid t).1 ht hne, hft, ?_⟩
    intro hwf
    simp [Service.getTaskById, findById_of_cast _ t._id.hex t._id hwf, hft]
  · intro t ht
    refine ⟨(mem_deleteOne db oid t).2 ht, ?_⟩
    intro hto
    have hnone := (findOne_eq_none_iff (deleteOne db oid) oid).mp hgone
    exact hnone t ht hto

/-- Witness for C16: deleting the second of two stored tasks. -/
theorem deleteTask_then_lookups_witness :
    ∃ db', Service.deleteTask [sampleTask, sampleTask2] "64b7f3a2c9e77a0012345679" =
        .ok (db', "Task deleted successfully") ∧
      Service.getTaskById 0 db' "64b7f3a2c9e77a0012345679" =
        .error (notFound "Task not found") ∧
      Service.deleteTask db' "64b7f3a2c9e77a0012345679" =
        .error (notFound "Task not found") ∧
      (notFound "Task not found").status = some 404 ∧
      (∀ t ∈ [sampleTask, sampleTask2], t._id ≠ sampleId2 →
        t ∈ db' ∧ findOne db' t._id = some t ∧
        (castObjectId t._id.hex = some t._id →
          Service.getTaskById 0 db' t._id.hex = .ok (Service.sanitizeTask 0 t))) ∧
      (∀ t ∈ db', t ∈ [sampleTask, sampleTask2] ∧ t._id ≠ sampleId2) :=
  deleteTask_then_lookups 0 [sampleTask, sampleTask2] "64b7f3a2c9e77a0012345679" sampleId2
    sampleTask2 (by decide) (by simp) rfl (by decide)

/-- C17 (counterexample): on the empty store the id `abc` resolves to no stored task, yet
`updateTask`, `markAsDone` and `deleteTask` do not fail with the NotFound error: each
fails with a cast error that has no status. -/
theorem mutations_malformed_id_not_404 :
    Service.updateTask sampleEnv [] "abc" [] none = .error (castError "abc") ∧
    Service.markAsDone sampleEnv [] "abc" = .error (castError "abc") ∧
    Service.deleteTask [] "abc" = .error (castError "abc") ∧
    castError "abc" ≠ notFound "Task not found" ∧
    (castError "abc").status = none := by
  have hc : castObjectId "abc" = none := by decide
  refine ⟨?_, ?_, ?_, by decide, rfl⟩
  · simp [Service.updateTask, findById_of_not_cast [] "abc" hc]
  · simp [Service.markAsDone, findById_of_not_cast [] "abc" hc]
  · simp [Service.deleteTask, findByIdAndDelete, hc]

/-- C17 (amended): for every store state and every id that is a well-formed ObjectId and
resolves to no stored task, `updateTask`, `markAsDone` and `deleteTask` each fail with the
NotFound error (status 404, message 'Task not found') and leave the store unchanged.  For
an id of any other form each fails with a cast error without status, and the store is
unchanged as well. -/
theorem mutations_missing_task (env : Env) (db : Collection) (id : String) (taskData : Body)
    (file : Option UploadedFile) :
    (∀ oid, castObjectId id = some oid → (∀ t ∈ db, t._id ≠ oid) →
      Service.updateTask env db id taskData file = .error (notFound "Task not found") ∧
      Service.markAsDone env db id = .error (notFound "Task not found") ∧
      Service.deleteTask db id = .error (notFound "Task not found") ∧
      (notFound "Task not found").status = some 404 ∧
      (notFound "Task not found").message = "Task not found") ∧
    (castObjectId id = none →
      Service.updateTask env db id taskData file = .error (castError id) ∧
      Service.markAsDone env db id = .error (castError id) ∧
      Service.deleteTask db id = .error (castError id)) ∧
    ((∀ oid, castObjectId id = some oid → ∀ t ∈ db, t._id ≠ oid) →
      storeAfter db (Service.updateTask env db id taskData file) = db ∧
      storeAfter db (Service.markAsDone env db id) = db ∧
      storeAfter db (Service.deleteTask db id) = db) := by
  have hwell : ∀ oid, castObjectId id = some oid → (∀ t ∈ db, t._id ≠ oid) →
      Service.updateTask env db id taskData file = .error (notFound "Task not found") ∧
      Service.markAsDone env db id = .error (notFound "Task not found") ∧
      Service.deleteTask db id = .error (notFound "Task not found") := by
    intro oid hid hnone
    have hf := (findOne_eq_none_iff db oid).mpr hnone
    refine ⟨?_, ?_, deleteTask_missing db id oid hid hf⟩
    · simp [Service.updateTask, findById_of_cast db id oid hid, hf]
    · simp [Service.markAsDone, findById_of_cast db id oid hid, hf]
  have hbad : castObjectId id = none →
      Service.updateTask env db id taskData file = .error (castError id) ∧
      Service.markAsDone env db id = .error (castError id) ∧
      Service.deleteTask db id = .error (castError id) := by
    intro hc
    refine ⟨?_, ?_, ?_⟩
    · simp [Service.updateTask, findById_of_not_cast db id hc]
    · simp [Service.markAsDone, findById_of_not_cast db id hc]
    · simp [Service.deleteTask, findByIdAndDelete, hc]
  refine ⟨fun oid hid hnone => ?_, hbad, ?_⟩
  · obtain ⟨h1, h2, h3⟩ := hwell oid hid hnone
    exact ⟨h1, h2, h3, rfl, rfl⟩
  · intro hno
    cases hc : castObjectId id with
    | none =>
      obtain ⟨h1, h2, h3⟩ := hbad hc
      rw [h1, h2, h3]
      exact ⟨rfl, rfl, rfl⟩
    | some oid =>
      obtain ⟨h1, h2, h3⟩ := hwell oid hc (hno oid hc)
      rw [h1, h2, h3]
      exact ⟨rfl, rfl, rfl⟩

/-- Witness for C17 (amended): a well-formed id that no stored task has. -/
theorem mutations_missing_task_witness :
    Service.updateTask sampleEnv [sampleTask] "64b7f3a2c9e77a0012345679" sampleBody none =
      .error (notFound "Task not found") ∧
    Service.markAsDone sampleEnv [sampleTask] "64b7f3a2c9e77a0012345679" =
      .error (notFound "Task not found") ∧
    Service.deleteTask [sampleTask] "64b7f3a2c9e77a0012345679" =
      .error (notFound "Task not found") ∧
    (notFound "Task not found").status = some 404 ∧
    (notFound "Task not found").message = "Task not found" :=
  (mutations_missing_task sampleEnv [sampleTask] "64b7f3a2c9e77a0012345679" sampleBody
    none).1 sampleId2 (by decide) (by decide)

/-! ## Theorems: upload filter and error handler -/

/-- The error handler passes the filter's error through as a 400. -/
theorem errorHandler_invalidFile :
    errorHandler invalidFileError =
      { status := 400, success := false, message := some "Only PDF files are allowed",
        data := none } := by
  decide

/-- A named file part whose type, as the parser reads it, is not `application/pdf` stops
the request in the upload middleware. -/
theorem withUpload_rejected (mimeOf : String → String) (handler : Handler) (db : Collection)
    (body : Body) (raw : RawFilePart) (hname : raw.filename ≠ "")
    (h : mimeOf raw.contentType ≠ "application/pdf") :
    Routes.withUpload mimeOf handler db { body := body, file := some raw } =
      (errorHandler invalidFileError, db) := by
  simp [Routes.withUpload, uploadSingle, fileFilter, describePart, hname, h]

/-- A named file part whose type, as the parser reads it, is `application/pdf` and whose
content is below the size limit reaches the handler as `req.file`. -/
theorem withUpload_accepted (mimeOf : String → String) (handler : Handler) (db : Collection)
    (body : Body) (raw : RawFilePart) (hname : raw.filename ≠ "")
    (h : mimeOf raw.contentType = "application/pdf")
    (hsize : raw.content.length < fileSizeLimit) :
    Routes.withUpload mimeOf handler db { body := body, file := some raw } =
      handler db body (some { buffer := raw.content, mimetype := "application/pdf",
                              originalname := raw.filename,
                              size := raw.content.length }) := by
  simp [Routes.withUpload, uploadSingle, fileFilter, describePart, hname, h,
    Nat.not_le.mpr hsize]

/-- C18 (counterexample): a create request with a `text/plain` file ends in a 400 whose
message is 'Only PDF files are allowed', without a final full stop, so it is not the
message "Only PDF files are allowed."; a file part that declares `application/PDF`, which
is not the text `application/pdf`, is not answered with 400 but with 201; and so is a
`text/plain` part without a filename, which the middleware skips. -/
theorem postTask_text_file_message :
    ((Routes.postTask sampleMimeOf sampleEnv []
        { body := sampleBody, file := some sampleTextPart }).1 =
      { status := 400, success := false, message := some "Only PDF files are allowed",
        data := none } ∧
     (Routes.postTask sampleMimeOf sampleEnv []
        { body := sampleBody, file := some sampleTextPart }).1.message
      ≠ some "Only PDF files are allowed.") ∧
    (samplePdfPart.contentType ≠ "application/pdf" ∧
     (Routes.postTask sampleMimeOf sampleEnv []
        { body := sampleBody, file := some samplePdfPart }).1.status = 201) ∧
    (sampleUnnamedPart.contentType ≠ "application/pdf" ∧
     (Routes.postTask sampleMimeOf sampleEnv []
        { body := sampleBody, file := some sampleUnnamedPart }).1.status = 201) := by
  have h : Routes.postTask sampleMimeOf sampleEnv []
      { body := sampleBody, file := some sampleTextPart } =
      (errorHandler invalidFileError, []) :=
    withUpload_rejected sampleMimeOf _ [] sampleBody sampleTextPart (by decide) (by decide)
  refine ⟨?_, ⟨by decide, rfl⟩, ⟨by decide, rfl⟩⟩
  rw [h, errorHandler_invalidFile]
  exact ⟨rfl, by decide⟩

/-- C18 (amended): for every uploaded file (a file part with a filename) whose MIME type as
the multipart parser reads it (the declared type in lower case, without parameters) is not
'application/pdf', the create or update request ends in an HTTP 400 response with
success=false whose message is exactly 'Only PDF files are allowed' (no final full stop),
as raised by the upload filter and passed through by the error handler. -/
theorem upload_invalid_file_400 (mimeOf : String → String) (env : Env) (db : Collection)
    (id : String) (body : Body) (raw : RawFilePart) (hname : raw.filename ≠ "")
    (h : mimeOf raw.contentType ≠ "application/pdf") :
    fileFilter (describePart mimeOf raw) = .error invalidFileError ∧
    invalidFileError.message = "Only PDF files are allowed" ∧
    (Routes.postTask mimeOf env db { body := body, file := some raw }).1 =
      { status := 400, success := false, message := some "Only PDF files are allowed",
        data := none } ∧
    (Routes.putTask mimeOf env id db { body := body, file := some raw }).1 =
      { status := 400, success := false, message := some "Only PDF files are allowed",
        data := none } := by
  refine ⟨by simp [fileFilter, describePart, h], rfl, ?_, ?_⟩
  · rw [Routes.postTask, withUpload_rejected mimeOf _ db body raw hname h,
      errorHandler_invalidFile]
  · rw [Routes.putTask, withUpload_rejected mimeOf _ db body raw hname h,
      errorHandler_invalidFile]

/-- Witness for C18 (amended): create and update requests with a `text/plain` file. -/
theorem upload_invalid_file_400_witness :
    fileFilter (describePart sampleMimeOf sampleTextPart) = .error invalidFileError ∧
    invalidFileError.message = "Only PDF files are allowed" ∧
    (Routes.postTask sampleMimeOf sampleEnv [sampleTask]
        { body := sampleBody, file := some sampleTextPart }).1 =
      { status := 400, success := false, message := some "Only PDF files are allowed",
        data := none } ∧
    (Routes.putTask sampleMimeOf sampleEnv "64b7f3a2c9e77a0012345678" [sampleTask]
        { body := sampleBody, file := some sampleTextPart }).1 =
      { status := 400, success := false, message := some "Only PDF files are allowed",
        data := none } :=
  upload_invalid_file_400 sampleMimeOf sampleEnv [sampleTask] "64b7f3a2c9e77a0012345678"
    sampleBody sampleTextPart (by decide) (by decide)

/-- C19 (counterexample): a create request whose file part declares `application/PDF`,
which is not the text `application/pdf`, passes the upload filter: the middleware hands
the file on with the type `application/pdf`, the answer is 201 and a task is stored.  A
`text/plain` part without a filename never reaches the filter, and a task is stored as
well. -/
theorem upload_accepts_normalised_type :
    samplePdfPart.contentType ≠ "application/pdf" ∧
    fileFilter (describePart sampleMimeOf samplePdfPart) = .ok true ∧
    uploadSingle sampleMimeOf (some samplePdfPart) =
      .ok (some { buffer := [37, 80, 68, 70, 45], mimetype := "application/pdf",
                  originalname := "plan.pdf", size := 5 }) ∧
    (Routes.postTask sampleMimeOf sampleEnv []
        { body := sampleBody, file := some samplePdfPart }).1.status = 201 ∧
    (Routes.postTask sampleMimeOf sampleEnv []
        { body := sampleBody, file := some samplePdfPart }).2.map hasFileData = [true] ∧
    uploadSingle sampleMimeOf (some sampleUnnamedPart) = .ok none ∧
    (Routes.postTask sampleMimeOf sampleEnv []
        { body := sampleBody, file := some sampleUnnamedPart }).2.map hasFileData =
      [false] := by
  exact ⟨by decide, rfl, rfl, rfl, rfl, rfl, rfl⟩

/-- C19 (amended): for every create or update request carrying a file (a file part with a
filename), the upload filter accepts the file exactly when its MIME type as the multipart
parser reads it (the declared type in lower case, without parameters) is
'application/pdf'; an accepted file below the size limit reaches the handler as
`req.file`; when the filter rejects, the answer and the store are the same whatever
handler follows the middleware (controller and service are not invoked), and the store is
unchanged: no task is created or modified, whatever the other fields. -/
theorem upload_filter_all_or_nothing (mimeOf : String → String) (env : Env)
    (db : Collection) (id : String) (body : Body) (raw : RawFilePart)
    (hname : raw.filename ≠ "") :
    (fileFilter (describePart mimeOf raw) = .ok true ↔
      mimeOf raw.contentType = "application/pdf") ∧
    (mimeOf raw.contentType = "application/pdf" → raw.content.length < fileSizeLimit →
      ∀ handler : Handler,
        Routes.withUpload mimeOf handler db { body := body, file := some raw } =
          handler db body (some { buffer := raw.content, mimetype := "application/pdf",
                                  originalname := raw.filename,
                                  size := raw.content.length })) ∧
    (mimeOf raw.contentType ≠ "application/pdf" →
      (∀ handler : Handler,
        Routes.withUpload mimeOf handler db { body := body, file := some raw } =
          (errorHandler invalidFileError, db)) ∧
      (Routes.postTask mimeOf env db { body := body, file := some raw }).2 = db ∧
      (Routes.putTask mimeOf env id db { body := body, file := some raw }).2 = db) := by
  refine ⟨?_, fun h hsize handler => withUpload_accepted mimeOf handler db body raw hname h
    hsize, fun h => ⟨fun handler => withUpload_rejected mimeOf handler db body raw hname h,
    ?_, ?_⟩⟩
  · by_cases hm : mimeOf raw.contentType = "application/pdf"
    · simp [fileFilter, describePart, hm]
    · simp [fileFilter, describePart, hm]
  · rw [Routes.postTask, withUpload_rejected mimeOf _ db body raw hname h]
  · rw [Routes.putTask, withUpload_rejected mimeOf _ db body raw hname h]

/-- Witness for C19 (amended): a valid create body with a `text/plain` file creates
nothing, even under a handler that would store a task. -/
theorem upload_filter_all_or_nothing_witness :
    Routes.withUpload sampleMimeOf sampleStoringHandler []
        { body := sampleBody, file := some sampleTextPart } =
      (errorHandler invalidFileError, []) ∧
    (Routes.postTask sampleMimeOf sampleEnv []
        { body := sampleBody, file := some sampleTextPart }).2 = [] :=
  ⟨((upload_filter_all_or_nothing sampleMimeOf sampleEnv [] "64b7f3a2c9e77a0012345678"
      sampleBody sampleTextPart (by decide)).2.2 (by decide)).1 _,
   ((upload_filter_all_or_nothing sampleMimeOf sampleEnv [] "64b7f3a2c9e77a0012345678"
      sampleBody sampleTextPart (by decide)).2.2 (by decide)).2.1⟩

/-- C20 (counterexample): the error of the upload filter has neither the code
LIMIT_FILE_SIZE nor the status 404, yet the handler does not answer 500 with the generic
message: it answers 400 with the error's own message, a body that differs from the one
another such error (a cast error) gets. -/
theorem errorHandler_other_error_not_500 :
    invalidFileError.code ≠ some "LIMIT_FILE_SIZE" ∧ invalidFileError.status ≠ some 404 ∧
    errorHandler invalidFileError =
      { status := 400, success := false, message := some "Only PDF files are allowed",
        data := none } ∧
    (castError "abc").code ≠ some "LIMIT_FILE_SIZE" ∧ (castError "abc").status ≠ some 404 ∧
    errorHandler invalidFileError ≠ errorHandler (castError "abc") := by
  refine ⟨by decide, by decide, errorHandler_invalidFile, by decide, by decide, ?_⟩
  rw [errorHandler_invalidFile, errorHandler_castError]
  decide

/-- C20 (amended): for every error forwarded to the central error handler the response
has success=false and a message, and its status and message are, in this order of
precedence: 400 with 'File too large – max 10 MB allowed.' when the error code is
LIMIT_FILE_SIZE; otherwise 400 with the error's own message when that message is
'Only PDF files are allowed'; otherwise 404 with the error's own message when the error
status is 404; and for every other error 500 with the fixed message 'Internal server
error', so that any two errors of this last kind get the same response. -/
theorem errorHandler_cases (err : JsError) :
    (errorHandler err).success = false ∧ (errorHandler err).message.isSome = true ∧
    (errorHandler err).data = none ∧
    (err.code = some "LIMIT_FILE_SIZE" →
      (errorHandler err).status = 400 ∧
      (errorHandler err).message = some "File too large – max 10 MB allowed.") ∧
    (err.code ≠ some "LIMIT_FILE_SIZE" → err.message = "Only PDF files are allowed" →
      (errorHandler err).status = 400 ∧ (errorHandler err).message = some err.message) ∧
    (err.code ≠ some "LIMIT_FILE_SIZE" → err.message ≠ "Only PDF files are allowed" →
      err.status = some 404 →
      (errorHandler err).status = 404 ∧ (errorHandler err).message = some err.message) ∧
    (err.code ≠ some "LIMIT_FILE_SIZE" → err.message ≠ "Only PDF files are allowed" →
      err.status ≠ some 404 →
      (errorHandler err).status = 500 ∧
      (errorHandler err).message = some "Internal server error" ∧
      ∀ err2 : JsError, err2.code ≠ some "LIMIT_FILE_SIZE" →
        err2.message ≠ "Only PDF files are allowed" → err2.status ≠ some 404 →
        errorHandler err2 = errorHandler err) := by
  refine ⟨?_, ?_, ?_, ?_, ?_, ?_, ?_⟩
  · unfold errorHandler
    split_ifs <;> rfl
  · unfold errorHandler
    split_ifs <;> rfl
  · unfold errorHandler
    split_ifs <;> rfl
  · intro h
    simp [errorHandler, h]
  · intro h1 h2
    simp [errorHandler, h1, h2]
  · intro h1 h2 h3
    simp [errorHandler, h1, h2, h3]
  · intro h1 h2 h3
    refine ⟨by simp [errorHandler, h1, h2, h3], by simp [errorHandler, h1, h2, h3], ?_⟩
    intro err2 g1 g2 g3
    simp [errorHandler, h1, h2, h3, g1, g2, g3]

/-- Witness for C20 (amended): the error of a too large file, a NotFound error and a cast
error. -/
theorem errorHandler_cases_witness :
    ((errorHandler fileTooLargeError).status = 400 ∧
      (errorHandler fileTooLargeError).message =
        some "File too large – max 10 MB allowed.") ∧
    ((errorHandler (notFound "No file attached to this task")).status = 404 ∧
      (errorHandler (notFound "No file attached to this task")).message =
        some (notFound "No file attached to this task").message) ∧
    ((errorHandler (castError "abc")).status = 500 ∧
      (errorHandler (castError "abc")).message = some "Internal server error" ∧
      ∀ err2 : JsError, err2.code ≠ some "LIMIT_FILE_SIZE" →
        err2.message ≠ "Only PDF files are allowed" → err2.status ≠ some 404 →
        errorHandler err2 = errorHandler (castError "abc")) :=
  ⟨(errorHandler_cases fileTooLargeError).2.2.2.1 rfl,
   (errorHandler_cases (notFound "No file attached to this task")).2.2.2.2.2.1
     (by decide) (by decide) rfl,
   (errorHandler_cases (castError "abc")).2.2.2.2.2.2
     (by decide) (by decide) (by decide)⟩

/-! ## Lemmas: trimming and lengths -/

/-- Stripping both ends leaves a list whose first element is kept by a further strip at
the front. -/
theorem dropWhile_rdropWhile_dropWhile (p : Char → Bool) (l : List Char) :
    ((l.dropWhile p).rdropWhile p).dropWhile p = (l.dropWhile p).rdropWhile p := by
  have hpre : (l.dropWhile p).rdropWhile p <+: l.dropWhile p := List.rdropWhile_prefix p _
  cases hB : (l.dropWhile p).rdropWhile p with
  | nil => rfl
  | cons b rest =>
    rw [hB] at hpre
    obtain ⟨t, ht⟩ := hpre
    have hne : l.dropWhile p ≠ [] := by
      rw [← ht]
      simp
    have hhead := List.head_dropWhile_not p l hne
    have hb : (l.dropWhile p).head hne = b := by
      simp [← ht]
    rw [hb] at hhead
    simp [List.dropWhile_cons, hhead]

/-- Trimming is idempotent. -/
theorem jsTrim_idem (s : String) : jsTrim (jsTrim s) = jsTrim s := by
  have h1 := dropWhile_rdropWhile_dropWhile isJsWhiteSpace s.toList
  have h2 : ((s.toList.dropWhile isJsWhiteSpace).rdropWhile isJsWhiteSpace).rdropWhile
      isJsWhiteSpace = (s.toList.dropWhile isJsWhiteSpace).rdropWhile isJsWhiteSpace :=
    List.rdropWhile_idempotent _ _
  unfold List.rdropWhile at h1 h2
  unfold jsTrim
  simp only [String.toList] at h1 h2 ⊢
  rw [h1, h2]

/-- Trimming does not lengthen a string. -/
theorem jsLength_jsTrim_le (s : String) : jsLength (jsTrim s) ≤ jsLength s := by
  have hsub : List.Sublist
      ((s.toList.dropWhile isJsWhiteSpace).reverse.dropWhile isJsWhiteSpace).reverse
      s.toList := by
    have h1 : List.Sublist ((s.toList.dropWhile isJsWhiteSpace).rdropWhile isJsWhiteSpace)
        (s.toList.dropWhile isJsWhiteSpace) :=
      (List.rdropWhile_prefix isJsWhiteSpace _).sublist
    exact h1.trans (List.dropWhile_sublist isJsWhiteSpace)
  unfold jsLength jsTrim
  simp only [String.toList]
  exact List.Sublist.sum_le_sum (hsub.map _) (fun a _ => Nat.zero_le a)

/-- Only the empty string has length 0. -/
theorem jsLength_pos (s : String) (h : s ≠ "") : 0 < jsLength s := by
  unfold jsLength
  cases hl : s.toList with
  | nil =>
    exfalso
    apply h
    have : s.data = [] := hl
    exact String.ext this
  | cons c rest =>
    simp only [List.map_cons, List.sum_cons]
    split_ifs <;> omega

/-! ## Theorems: client utilities -/

/-- C24: `validatePdfFile` returns null exactly when no file is given or the file's type
is exactly 'application/pdf' and its size is at most 10*1024*1024 bytes; it returns 'Only
PDF files are allowed' whenever the type differs, regardless of size, and 'File must be
under 10 MB' when the type is PDF and the size exceeds 10*1024*1024 bytes. -/
theorem validatePdfFile_spec (file : Option BrowserFile) :
    (validatePdfFile file = none ↔
      (file = none ∨ ∃ f, file = some f ∧ f.type = "application/pdf" ∧
        f.size ≤ 10 * 1024 * 1024)) ∧
    (∀ f, file = some f → f.type ≠ "application/pdf" →
      validatePdfFile file = some "Only PDF files are allowed") ∧
    (∀ f, file = some f → f.type = "application/pdf" → 10 * 1024 * 1024 < f.size →
      validatePdfFile file = some "File must be under 10 MB") := by
  cases file with
  | none => simp [validatePdfFile]
  | some f =>
    refine ⟨?_, ?_, ?_⟩
    · by_cases ht : f.type = "application/pdf"
      · by_cases hs : f.size ≤ 10 * 1024 * 1024
        · simp [validatePdfFile, MAX_FILE_SIZE, ht, hs]
        · simp [validatePdfFile, MAX_FILE_SIZE, ht, hs]
      · simp [validatePdfFile, ht]
    · intro g hg ht
      cases hg
      simp [validatePdfFile, ht]
    · intro g hg ht hs
      cases hg
      simp [validatePdfFile, MAX_FILE_SIZE, ht, hs]

/-- Witness for C24: a PDF of exactly 10 MB passes, a larger one and a text file do
not. -/
theorem validatePdfFile_spec_witness :
    validatePdfFile (some { name := "a.pdf", type := "application/pdf",
                            size := 10 * 1024 * 1024 }) = none ∧
    validatePdfFile (some { name := "a.txt", type := "text/plain", size := 1 }) =
      some "Only PDF files are allowed" ∧
    validatePdfFile (some { name := "b.pdf", type := "application/pdf",
                            size := 10 * 1024 * 1024 + 1 }) =
      some "File must be under 10 MB" :=
  ⟨(validatePdfFile_spec _).1.mpr (Or.inr ⟨_, rfl, rfl, by decide⟩),
   (validatePdfFile_spec _).2.1 _ rfl (by decide),
   (validatePdfFile_spec _).2.2 _ rfl rfl (by decide)⟩

/-- C25: for every byte count that a JavaScript number holds exactly (below 2^53),
`formatFileSize` returns the decimal digits of `bytes/1024` rounded to the nearest integer
`n` (`bytes/1024 - 1/2 < n ≤ bytes/1024 + 1/2`), followed by ' KB'; for a multiple of 1024
that is the quotient itself. -/
theorem formatFileSize_rounds (bytes : Nat) (_hsafe : bytes < 2 ^ 53) :
    (∃ n : Nat, formatFileSize bytes = Nat.repr n ++ " KB" ∧
      1024 * n ≤ bytes + 512 ∧ bytes + 512 < 1024 * n + 1024) ∧
    (∀ k : Nat, bytes = 1024 * k → formatFileSize bytes = Nat.repr k ++ " KB") := by
  have hq : (2 * bytes + 1024) / (2 * 1024) = (bytes + 512) / 1024 := by omega
  refine ⟨⟨(bytes + 512) / 1024, ?_, ?_, ?_⟩, ?_⟩
  · simp only [formatFileSize, toFixed0, hq]
  · omega
  · omega
  · intro k hk
    have : (bytes + 512) / 1024 = k := by omega
    simp only [formatFileSize, toFixed0, hq, this]

/-- Witness for C25: 204800 bytes give '200 KB'. -/
theorem formatFileSize_rounds_witness :
    formatFileSize 204800 = "200 KB" ∧
    ∃ n : Nat, formatFileSize 1536 = Nat.repr n ++ " KB" ∧
      1024 * n ≤ 1536 + 512 ∧ 1536 + 512 < 1024 * n + 1024 :=
  ⟨((formatFileSize_rounds 204800 (by decide)).2 200 (by decide)).trans (by decide),
   (formatFileSize_rounds 1536 (by decide)).1⟩

/-- C28: for a valid deadline `d` and a fixed instant `now`, `isOverdue` is true exactly
when `getDisplayStatus` is 'Failed' and the deadline is not `now`; so `isOverdue` implies
'Failed', and a 'Failed' task that is not overdue is a not-done task whose deadline is
exactly `now`. -/
theorem isOverdue_iff_failed (now d : Int) (status : String) :
    (isOverdue now status (some d) = true ↔
      (getDisplayStatus now status (some d) = "Failed" ∧ d ≠ now)) ∧
    (isOverdue now status (some d) = true → getDisplayStatus now status (some d) = "Failed") ∧
    (getDisplayStatus now status (some d) = "Failed" → isOverdue now status (some d) = false →
      status ≠ "DONE" ∧ d = now) := by
  have hfailed : getDisplayStatus now status (some d) = "Failed" ↔
      (status ≠ "DONE" ∧ d ≤ now) := by
    by_cases hs : status = "DONE"
    · by_cases hlt : d < now
      · simp [getDisplayStatus, JsDate.gt, JsDate.le, JsDate.ge, hs, hlt]
      · simp [getDisplayStatus, JsDate.gt, JsDate.le, JsDate.ge, hs, hlt, not_lt.mp hlt]
    · by_cases hle : d ≤ now
      · simp [getDisplayStatus, JsDate.gt, JsDate.le, JsDate.ge, hs, hle]
      · simp [getDisplayStatus, JsDate.gt, JsDate.le, JsDate.ge, hs, hle]
  have hover : isOverdue now status (some d) = true ↔ (status ≠ "DONE" ∧ d < now) := by
    simp [isOverdue, JsDate.lt]
  refine ⟨?_, ?_, ?_⟩
  · rw [hover, hfailed]
    constructor
    · rintro ⟨h1, h2⟩
      exact ⟨⟨h1, le_of_lt h2⟩, ne_of_lt h2⟩
    · rintro ⟨⟨h1, h2⟩, h3⟩
      exact ⟨h1, lt_of_le_of_ne h2 h3⟩
  · intro h
    rw [hfailed]
    rw [hover] at h
    exact ⟨h.1, le_of_lt h.2⟩
  · intro hf hno
    rw [hfailed] at hf
    refine ⟨hf.1, ?_⟩
    by_contra hne
    have : isOverdue now status (some d) = true := hover.mpr ⟨hf.1, lt_of_le_of_ne hf.2 hne⟩
    rw [this] at hno
    cases hno

/-- Witness for C28: a TODO task whose deadline is exactly now is 'Failed' but not
overdue; one millisecond later it is overdue. -/
theorem isOverdue_iff_failed_witness :
    ("TODO" ≠ "DONE" ∧ (5 : Int) = 5) ∧ getDisplayStatus 6 "TODO" (some 5) = "Failed" :=
  ⟨(isOverdue_iff_failed 5 5 "TODO").2.2 (by decide) (by decide),
   (isOverdue_iff_failed 6 5 "TODO").2.1 (by decide)⟩

/-! ## Theorems: the client task list and the task form -/

/-- C26: for every task list and every task the server returns, the list `handleUpdate` or
`handleMarkAsDone` produces has the same length and order as before: at every position it
holds the returned task if the previous entry has its `_id`, and the previous entry
otherwise; `handleCreate` puts the created task at the head and keeps the previous
entries in order after it. -/
theorem handlers_list_update (st : TaskListState) (task : JsObject) :
    (handleUpdate st (.ok task)).tasks.length = st.tasks.length ∧
    (∀ (i : Nat) (h : i < st.tasks.length),
      (handleUpdate st (.ok task)).tasks[i]? =
        some (if (st.tasks.get ⟨i, h⟩).get "_id" = task.get "_id" then task
              else st.tasks.get ⟨i, h⟩)) ∧
    (handleMarkAsDone st (.ok task)).tasks = (handleUpdate st (.ok task)).tasks ∧
    (handleCreate st (.ok task)).tasks = task :: st.tasks := by
  refine ⟨?_, ?_, rfl, rfl⟩
  · simp [handleUpdate, replaceById]
  · intro i h
    simp [handleUpdate, replaceById, List.getElem?_eq_getElem h]

/-- Witness for C26: replacing the second entry of a list of two. -/
theorem handlers_list_update_witness :
    (handleUpdate { tasks := sampleList, error := none, successMsg := "" }
        (.ok (Service.sanitizeTask 0 sampleCreated))).tasks[1]? =
      some (Service.sanitizeTask 0 sampleCreated) ∧
    (handleUpdate { tasks := sampleList, error := none, successMsg := "" }
        (.ok (Service.sanitizeTask 0 sampleCreated))).tasks[0]? =
      some (Service.sanitizeTask 0 sampleTask2) :=
  ⟨((handlers_list_update { tasks := sampleList, error := none, successMsg := "" }
      (Service.sanitizeTask 0 sampleCreated)).2.1 1 (by decide)).trans (by decide),
   ((handlers_list_update { tasks := sampleList, error := none, successMsg := "" }
      (Service.sanitizeTask 0 sampleCreated)).2.1 0 (by decide)).trans (by decide)⟩

/-- C29: for every form state that `validate` accepts, the submitted text fields (trimmed
title, trimmed description, deadline) are all truthy, so they pass the create controller's
presence check, and the title and description pass the schema's validators after its
`trim` setter: non-empty, at most 100 and 500 long. -/
theorem validate_implies_server_accepts (form : TaskForm)
    (h : (TaskModal.validate form).2 = true) :
    (!truthy ((TaskModal.submittedFields form).field "title") ||
      !truthy ((TaskModal.submittedFields form).field "description") ||
      !truthy ((TaskModal.submittedFields form).field "deadline")) = false ∧
    (0 < jsLength (jsTrim (jsTrim form.title)) ∧
      jsLength (jsTrim (jsTrim form.title)) ≤ 100) ∧
    (0 < jsLength (jsTrim (jsTrim form.description)) ∧
      jsLength (jsTrim (jsTrim form.description)) ≤ 500) ∧
    titleError (((TaskModal.submittedFields form).field "title").map jsTrim) = none ∧
    descriptionError (((TaskModal.submittedFields form).field "description").map jsTrim) =
      none := by
  have ht : jsTrim form.title ≠ "" ∧ ¬ jsLength form.title > 100 := by
    by_cases h1 : jsTrim form.title = ""
    · simp [TaskModal.validate, h1] at h
    · by_cases h2 : jsLength form.title > 100
      · simp [TaskModal.validate, h1, h2] at h
      · exact ⟨h1, h2⟩
  have hd : jsTrim form.description ≠ "" ∧ ¬ jsLength form.description > 500 := by
    by_cases h1 : jsTrim form.description = ""
    · simp [TaskModal.validate, h1] at h
    · by_cases h2 : jsLength form.description > 500
      · simp [TaskModal.validate, h1, h2] at h
      · exact ⟨h1, h2⟩
  have hdl : form.deadline ≠ "" := by
    intro h1
    simp [TaskModal.validate, h1] at h
  have ht1 : 0 < jsLength (jsTrim (jsTrim form.title)) := by
    rw [jsTrim_idem]
    exact jsLength_pos _ ht.1
  have ht2 : jsLength (jsTrim (jsTrim form.title)) ≤ 100 := by
    rw [jsTrim_idem]
    exact le_trans (jsLength_jsTrim_le _) (Nat.not_lt.mp ht.2)
  have hd1 : 0 < jsLength (jsTrim (jsTrim form.description)) := by
    rw [jsTrim_idem]
    exact jsLength_pos _ hd.1
  have hd2 : jsLength (jsTrim (jsTrim form.description)) ≤ 500 := by
    rw [jsTrim_idem]
    exact le_trans (jsLength_jsTrim_le _) (Nat.not_lt.mp hd.2)
  refine ⟨?_, ⟨ht1, ht2⟩, ⟨hd1, hd2⟩, ?_, ?_⟩
  · simp [TaskModal.submittedFields, Body.field, truthy, ht.1, hd.1, hdl]
  · simpa [TaskModal.submittedFields, Body.field] using titleError_none _ ht1 ht2
  · simpa [TaskModal.submittedFields, Body.field] using descriptionError_none _ hd1 hd2

/-- Witness for C29: a form whose title carries surrounding blanks. -/
theorem validate_implies_server_accepts_witness :
    (TaskModal.validate sampleForm).2 = true ∧
    (0 < jsLength (jsTrim (jsTrim sampleForm.title)) ∧
      jsLength (jsTrim (jsTrim sampleForm.title)) ≤ 100) :=
  ⟨by decide, (validate_implies_server_accepts sampleForm (by decide)).2.1⟩

/-! ## Theorems: attachment flag -/

/-- C27: for every stored task, `getTaskFile` succeeds exactly when `sanitizeTask` of the
same record reports `hasFile = true`. -/
theorem getTaskFile_ok_iff_hasFile (now : Int) (db : Collection) (id : String)
    (oid : ObjectId) (task : Task) (hid : castObjectId id = some oid)
    (hfind : findOne db oid = some task) :
    (∃ download, Service.getTaskFile db id = .ok download) ↔
      (Service.sanitizeTask now task).get "hasFile" = some (.atom (.bool true)) := by
  have hflag : (Service.sanitizeTask now task).get "hasFile" =
      some (.atom (.bool (hasFileData task))) := by
    simp [Service.sanitizeTask, Task.toJSON, JsObject.set, JsObject.delete, JsObject.get]
  rw [hflag]
  unfold Service.getTaskFile
  rw [findById_of_cast db id oid hid, hfind]
  cases hl : task.linkedFile with
  | none => simp [hasFileData, hl]
  | some lf =>
    cases hdata : lf.data with
    | none => simp [hasFileData, hl, hdata]
    | some bytes => simp [hasFileData, hl, hdata]

/-- Witness for C27: the seeded task has an attachment and its download succeeds. -/
theorem getTaskFile_ok_iff_hasFile_witness :
    ∃ download, Service.getTaskFile [sampleTask, sampleTask2] "64b7f3a2c9e77a0012345678" =
      .ok download :=
  (getTaskFile_ok_iff_hasFile 0 [sampleTask, sampleTask2] "64b7f3a2c9e77a0012345678" sampleId
    sampleTask (by decide) (by decide)).mpr (by decide)

/-- C30: for every stored task that has an attachment, after any successful `updateTask`
(any fields, with or without a new file) and after any successful `markAsDone` the stored
task still has an attachment and the returned record has `hasFile = true`. -/
theorem attachment_never_removed (env : Env) (db : Collection) (id : String) (oid : ObjectId)
    (taskData : Body) (file : Option UploadedFile) (old : Task)
    (hid : castObjectId id = some oid) (hold : findOne db oid = some old)
    (hfile : hasFileData old = true) :
    (∀ db' out, Service.updateTask env db id taskData file = .ok (db', out) →
      ∃ new, findOne db' oid = some new ∧ hasFileData new = true ∧
        out.get "hasFile" = some (.atom (.bool true))) ∧
    (∀ db' out, Service.markAsDone env db id = .ok (db', out) →
      ∃ new, findOne db' oid = some new ∧ hasFileData new = true ∧
        out.get "hasFile" = some (.atom (.bool true))) := by
  have hflag : ∀ (now : Int) (t : Task), (Service.sanitizeTask now t).get "hasFile" =
      some (.atom (.bool (hasFileData t))) := by
    intro now t
    simp [Service.sanitizeTask, Task.toJSON, JsObject.set, JsObject.delete, JsObject.get]
  refine ⟨?_, ?_⟩
  · intro db' out h
    obtain ⟨new, hfind, -, hout, -, -, -, -, -, hlf, -⟩ :=
      updateTask_ok_inv env db db' id oid taskData file old out hid hold h
    have hnew : hasFileData new = true := by
      cases file with
      | none =>
        have : new.linkedFile = old.linkedFile := by simpa [Service.assignFile] using hlf
        unfold hasFileData at hfile ⊢
        rw [this]
        exact hfile
      | some f =>
        have : new.linkedFile = some (linkedFileOf f) := by
          simpa [Service.assignFile] using hlf
        simp [hasFileData, this, linkedFileOf]
    exact ⟨new, hfind, hnew, by rw [hout, hflag, hnew]⟩
  · intro db' out h
    obtain ⟨new, hfind, -, hout, hcase⟩ := markAsDone_ok_inv env db db' id oid old out hid hold h
    have hnew : hasFileData new = true := by
      rcases hcase with ⟨-, hn⟩ | ⟨-, hn⟩
      · rw [hn]
        exact hfile
      · rw [hn]
        exact hfile
    exact ⟨new, hfind, hnew, by rw [hout, hflag, hnew]⟩

/-- Witness for C30: the seeded task keeps its attachment through an update of its
status. -/
theorem attachment_never_removed_witness :
    ∃ db' out, Service.updateTask sampleEnv [sampleTask] "64b7f3a2c9e77a0012345678"
        [("status", "DONE")] none = .ok (db', out) ∧
      ∃ new, findOne db' sampleId = some new ∧ hasFileData new = true ∧
        out.get "hasFile" = some (.atom (.bool true)) :=
  ⟨_, _, rfl,
    (attachment_never_removed sampleEnv [sampleTask] "64b7f3a2c9e77a0012345678" sampleId
      [("status", "DONE")] none sampleTask (by decide) (by decide) (by decide)).1 _ _ rfl⟩

/-! ## Lemmas: validation outcomes -/

/-- The validators of `title` pass exactly on a text of 1 to 100 code units. -/
theorem titleError_eq_none_iff (s : String) :
    titleError (some s) = none ↔ (0 < jsLength s ∧ jsLength s ≤ 100) := by
  unfold titleError
  simp only
  split_ifs with h1 h2
  · simp [h1]
  · simp only [reduceCtorEq, false_iff, not_and, not_le]
    intro _
    exact h2
  · simp only [true_iff]
    exact ⟨Nat.pos_of_ne_zero h1, Nat.not_lt.mp h2⟩

/-- The validators of `description` pass exactly on a text of 1 to 500 code units. -/
theorem descriptionError_eq_none_iff (s : String) :
    descriptionError (some s) = none ↔ (0 < jsLength s ∧ jsLength s ≤ 500) := by
  unfold descriptionError
  simp only
  split_ifs with h1 h2
  · simp [h1]
  · simp only [reduceCtorEq, false_iff, not_and, not_le]
    intro _
    exact h2
  · simp only [true_iff]
    exact ⟨Nat.pos_of_ne_zero h1, Nat.not_lt.mp h2⟩

/-- No entry of `ValidationError.errors` exactly when every check passes. -/
theorem validationErrors_eq_nil_iff (title description : Option String) (status : String)
    (deadline : JsDate) :
    validationErrors title description status deadline = [] ↔
      (deadlineError deadline = none ∧ titleError title = none ∧
        descriptionError description = none ∧ statusError status = none) := by
  unfold validationErrors
  cases deadlineError deadline <;> cases titleError title <;>
    cases descriptionError description <;> cases statusError status <;> simp [pathError]

/-- The entries of `ValidationError.errors`: one per failed path, with its message. -/
theorem mem_validationErrors (title description : Option String) (status : String)
    (deadline : JsDate) (path msg : String) :
    (path, msg) ∈ validationErrors title description status deadline ↔
      ((path = "deadline" ∧ deadlineError deadline = some msg) ∨
       (path = "title" ∧ titleError title = some msg) ∨
       (path = "description" ∧ descriptionError description = some msg) ∨
       (path = "status" ∧ statusError status = some msg)) := by
  unfold validationErrors
  cases deadlineError deadline <;> cases titleError title <;>
    cases descriptionError description <;> cases statusError status <;>
    simp [pathError] <;> tauto

/-- No path occurs twice in `ValidationError.errors`. -/
theorem validationErrors_paths_nodup (title description : Option String) (status : String)
    (deadline : JsDate) :
    ((validationErrors title description status deadline).map Prod.fst).Nodup := by
  unfold validationErrors
  cases deadlineError deadline <;> cases titleError title <;>
    cases descriptionError description <;> cases statusError status <;>
    simp [pathError]

/-- A new document with a failed check is rejected with the validation error. -/
theorem saveNew_rejected (id : ObjectId) (ts : Int) (db : Collection) (p : TaskPayload)
    (h : validationErrors (p.title.map jsTrim) (p.description.map jsTrim) p.status
      p.deadline ≠ []) :
    saveNew id ts db p = .error (validationError
      (validationErrors (p.title.map jsTrim) (p.description.map jsTrim) p.status
        p.deadline)) := by
  unfold saveNew
  simp only
  split
  · next hv _ _ _ => exact absurd hv h
  · rfl

/-- A loaded document with a failed check is rejected with the validation error. -/
theorem saveExisting_rejected (ts : Int) (db : Collection) (task : Task)
    (title description status : String) (deadline : JsDate) (linkedFile : Option LinkedFile)
    (h : validationErrors (some title) (some description) status deadline ≠ []) :
    saveExisting ts db task title description status deadline linkedFile =
      .error (validationError
        (validationErrors (some title) (some description) status deadline)) := by
  unfold saveExisting
  split
  · next hv => exact absurd hv h
  · rfl

/-- A document that was saved passed every check. -/
theorem saveNew_ok_valid (id : ObjectId) (ts : Int) (db db' : Collection) (p : TaskPayload)
    (task : Task) (h : saveNew id ts db p = .ok (db', task)) :
    validationErrors (some task.title) (some task.description) task.status
      (some task.deadline) = [] := by
  unfold saveNew at h
  simp only at h
  split at h
  · next hv ht hd hdl =>
    simp only [Except.ok.injEq, Prod.mk.injEq] at h
    rw [← h.2]
    rw [ht, hd, hdl] at hv
    exact hv
  · simp at h

/-- A loaded document that was saved passed every check. -/
theorem saveExisting_ok_valid (ts : Int) (db db' : Collection) (task saved : Task)
    (title description status : String) (deadline : JsDate) (linkedFile : Option LinkedFile)
    (h : saveExisting ts db task title description status deadline linkedFile =
      .ok (db', saved)) :
    validationErrors (some saved.title) (some saved.description) saved.status
      (some saved.deadline) = [] := by
  obtain ⟨-, -, ht, hd, hs, hdl, -⟩ := saveExisting_ok_inv _ _ _ _ _ _ _ _ _ _ h
  unfold saveExisting at h
  split at h
  · next dl hv =>
    rw [ht, hd, hs, ← hdl]
    exact hv
  · simp at h

/-- A document without validation failures meets the schema. -/
theorem meetsSchema_of_valid (t : Task)
    (h : validationErrors (some t.title) (some t.description) t.status (some t.deadline) = []) :
    t.meetsSchema := by
  obtain ⟨-, h1, h2, h3⟩ := (validationErrors_eq_nil_iff _ _ _ _).mp h
  have ht := (titleError_eq_none_iff _).mp h1
  have hd := (descriptionError_eq_none_iff _).mp h2
  refine ⟨⟨ht.1, ht.2, hd.1, hd.2⟩, ?_⟩
  unfold statusError at h3
  by_contra hs
  rw [if_neg hs] at h3
  cases h3

/-- The documents after a write-back are the written one or documents from before. -/
theorem mem_replaceOne (db : Collection) (doc t : Task) (h : t ∈ replaceOne db doc) :
    t = doc ∨ t ∈ db := by
  induction db with
  | nil => simp [replaceOne] at h
  | cons a rest ih =>
    by_cases ha : a._id = doc._id
    · simp only [replaceOne, ha, if_true, List.mem_cons] at h
      rcases h with h | h
      · exact Or.inl h
      · exact Or.inr (List.mem_cons_of_mem _ h)
    · simp only [replaceOne, ha, if_false, List.mem_cons] at h
      rcases h with h | h
      · exact Or.inr (by rw [h]; exact List.mem_cons_self _ _)
      · rcases ih h with h' | h'
        · exact Or.inl h'
        · exact Or.inr (List.mem_cons_of_mem _ h')

/-- An assigned text path is held trimmed if the stored one was. -/
theorem assignText_trimmed (field : Option String) (current : String)
    (h : jsTrim current = current) :
    jsTrim (Service.assignText field current) = Service.assignText field current := by
  unfold Service.assignText
  cases field with
  | none => exact h
  | some s =>
    simp only
    split_ifs
    · exact jsTrim_idem s
    · exact h

/-! ## Theorems: validation errors and the store invariant -/

/-- The controllers' answer to a validation error: 400 with the messages joined. -/
theorem onServiceError_validationError (errs : List (String × String)) :
    onServiceError (validationError errs) =
      { status := 400, success := false,
        message := some (", ".intercalate (errs.map Prod.snd)), data := none } := by
  simp [onServiceError, validationError]

/-- C21: for every create or update request that fails schema validation with a non-empty
list `errs` of field violations, the controller responds with HTTP 400, success=false and
the messages of `errs` joined with ', ' (the store is unchanged); `errs` holds one entry
for each violated path, with that path's message, and no path twice. -/
theorem validation_failure_response (env : Env) (db : Collection) (id : String)
    (oid : ObjectId) (body : Body) (file : Option UploadedFile) (old : Task)
    (errs : List (String × String)) (hne : errs ≠ []) :
    ((!truthy (body.field "title") || !truthy (body.field "description") ||
        !truthy (body.field "deadline")) = false →
      validationErrors ((body.field "title").map jsTrim)
        ((body.field "description").map jsTrim) "TODO"
        (newDate env.parseDate (body.field "deadline")) = errs →
      Controller.createTask env db body file =
        ({ status := 400, success := false,
           message := some (", ".intercalate (errs.map Prod.snd)), data := none }, db)) ∧
    (castObjectId id = some oid → findOne db oid = some old →
      validationErrors (some (Service.assignText (body.field "title") old.title))
        (some (Service.assignText (body.field "description") old.description))
        (Service.assignStatus (body.field "status") old.status)
        (Service.assignDeadline env.parseDate (body.field "deadline") old.deadline) = errs →
      Controller.updateTask env id db body file =
        ({ status := 400, success := false,
           message := some (", ".intercalate (errs.map Prod.snd)), data := none }, db)) ∧
    (∀ (title description : Option String) (status : String) (deadline : JsDate),
      ((validationErrors title description status deadline).map Prod.fst).Nodup ∧
      ∀ path msg, (path, msg) ∈ validationErrors title description status deadline ↔
        ((path = "deadline" ∧ deadlineError deadline = some msg) ∨
         (path = "title" ∧ titleError title = some msg) ∨
         (path = "description" ∧ descriptionError description = some msg) ∨
         (path = "status" ∧ statusError status = some msg))) := by
  refine ⟨?_, ?_, ?_⟩
  · intro hpresent herrs
    have hsave := saveNew_rejected env.newId env.saveTime db
      (Service.createPayload env body file) (by
        simp only [Service.createPayload]
        rw [herrs]
        exact hne)
    simp only [Service.createPayload] at hsave
    rw [herrs] at hsave
    have hsvc : Service.createTask env db body file = .error (validationError errs) := by
      unfold Service.createTask
      simp only [Service.createPayload, hsave]
    unfold Controller.createTask Controller.createTaskWith
    rw [hpresent]
    simp only [Bool.false_eq_true, if_false, hsvc, onServiceError_validationError]
  · intro hid hold herrs
    have hsave := saveExisting_rejected env.saveTime db old _ _ _ _
      (Service.assignFile file old.linkedFile) (by rw [herrs]; exact hne)
    rw [herrs] at hsave
    have hsvc : Service.updateTask env db id body file = .error (validationError errs) := by
      unfold Service.updateTask
      rw [findById_of_cast db id oid hid, hold]
      simp only [hsave]
    unfold Controller.updateTask Controller.updateTaskWith
    simp only [hsvc, onServiceError_validationError]
  · intro title description status deadline
    exact ⟨validationErrors_paths_nodup title description status deadline,
      fun path msg => mem_validationErrors title description status deadline path msg⟩

/-- Witness for C21: a create request whose title is blank and whose deadline is no date
gets both messages, joined by a comma and a blank. -/
theorem validation_failure_response_witness :
    Controller.createTask sampleEnv []
        [("title", "   "), ("description", "Read docs"), ("deadline", "soon")] none =
      ({ status := 400, success := false,
         message := some (", ".intercalate
           ([("deadline",
              "Cast to date failed for value \"Invalid Date\" (type Date) at path \"deadline\""),
             ("title", "Title is required")].map Prod.snd)),
         data := none }, []) :=
  (validation_failure_response sampleEnv [] "64b7f3a2c9e77a0012345678" sampleId
    [("title", "   "), ("description", "Read docs"), ("deadline", "soon")] none sampleTask
    [("deadline",
      "Cast to date failed for value \"Invalid Date\" (type Date) at path \"deadline\""),
     ("title", "Title is required")] (by decide)).1 (by decide) (by decide)

/-- A record `createTask` stored is within the schema's bounds and held trimmed. -/
theorem createTask_persistedOk (env : Env) (db db' : Collection) (taskData : Body)
    (file : Option UploadedFile) (out : JsObject)
    (h : Service.createTask env db taskData file = .ok (db', out)) :
    ∃ task : Task, db' = db ++ [task] ∧ task.persistedOk := by
  unfold Service.createTask at h
  cases hs : saveNew env.newId env.saveTime db (Service.createPayload env taskData file) with
  | error e => simp [hs] at h
  | ok r =>
    obtain ⟨db1, saved⟩ := r
    simp only [hs, Except.ok.injEq, Prod.mk.injEq] at h
    obtain ⟨hdb, -, -, -, -, ht, hd, -⟩ := saveNew_ok_inv _ _ _ _ _ _ hs
    refine ⟨saved, by rw [← h.1, hdb], meetsSchema_of_valid saved (saveNew_ok_valid _ _ _ _ _ _ hs),
      ?_, ?_⟩
    · cases hp : (Service.createPayload env taskData file).title with
      | none => simp [hp] at ht
      | some t =>
        simp only [hp, Option.map_some', Option.some.injEq] at ht
        rw [← ht]
        exact jsTrim_idem t
    · cases hp : (Service.createPayload env taskData file).description with
      | none => simp [hp] at hd
      | some t =>
        simp only [hp, Option.map_some', Option.some.injEq] at hd
        rw [← hd]
        exact jsTrim_idem t

/-- C22: invariant of the store under create, update and markAsDone: if every persisted
task has a title of 1 to 100 and a description of 1 to 500 code units, both held trimmed,
and a status in {TODO, DONE} (the deadline is a date by the type of the record), then so
has every persisted task after a successful `createTask`, `updateTask` or `markAsDone`;
and a create or update whose title or description, once trimmed, is empty or too long, or
whose deadline is no date, is rejected with a validation error and leaves the store
unchanged. -/
theorem store_invariant (env : Env) (db : Collection) (id : String) (taskData : Body)
    (file : Option UploadedFile) (hinv : ∀ t ∈ db, t.persistedOk) :
    (∀ db' out, Service.createTask env db taskData file = .ok (db', out) →
      ∀ t ∈ db', t.persistedOk) ∧
    (∀ db' out, Service.updateTask env db id taskData file = .ok (db', out) →
      ∀ t ∈ db', t.persistedOk) ∧
    (∀ db' out, Service.markAsDone env db id = .ok (db', out) → ∀ t ∈ db', t.persistedOk) ∧
    (((∀ t, taskData.field "title" = some t →
          jsLength (jsTrim t) = 0 ∨ 100 < jsLength (jsTrim t)) ∨
      (∀ d, taskData.field "description" = some d →
          jsLength (jsTrim d) = 0 ∨ 500 < jsLength (jsTrim d)) ∨
      newDate env.parseDate (taskData.field "deadline") = none) →
      ∃ errs, errs ≠ [] ∧
        Service.createTask env db taskData file = .error (validationError errs) ∧
        (validationError errs).name = "ValidationError" ∧
        storeAfter db (Service.createTask env db taskData file) = db) ∧
    (∀ oid old, castObjectId id = some oid → findOne db oid = some old →
      ((∃ t, taskData.field "title" = some t ∧ t ≠ "" ∧
          (jsLength (jsTrim t) = 0 ∨ 100 < jsLength (jsTrim t))) ∨
       (∃ d, taskData.field "description" = some d ∧ d ≠ "" ∧
          (jsLength (jsTrim d) = 0 ∨ 500 < jsLength (jsTrim d))) ∨
       (∃ dl, taskData.field "deadline" = some dl ∧ dl ≠ "" ∧ env.parseDate dl = none)) →
      ∃ errs, errs ≠ [] ∧
        Service.updateTask env db id taskData file = .error (validationError errs) ∧
        (validationError errs).name = "ValidationError" ∧
        storeAfter db (Service.updateTask env db id taskData file) = db) := by
  have htitle : ∀ s : String, (jsLength s = 0 ∨ 100 < jsLength s) →
      titleError (some s) ≠ none := by
    intro s hs hnone
    have := (titleError_eq_none_iff s).mp hnone
    omega
  have hdesc : ∀ s : String, (jsLength s = 0 ∨ 500 < jsLength s) →
      descriptionError (some s) ≠ none := by
    intro s hs hnone
    have := (descriptionError_eq_none_iff s).mp hnone
    omega
  refine ⟨?_, ?_, ?_, ?_, ?_⟩
  · intro db' out h t ht
    obtain ⟨task, hdb, hok⟩ := createTask_persistedOk env db db' taskData file out h
    rw [hdb] at ht
    rcases List.mem_append.mp ht with h1 | h1
    · exact hinv t h1
    · have : t = task := by simpa using h1
      rw [this]
      exact hok
  · intro db' out h t ht
    cases hc : castObjectId id with
    | none => simp [Service.updateTask, findById_of_not_cast db id hc] at h
    | some oid =>
      cases hf : findOne db oid with
      | none => simp [Service.updateTask, findById_of_cast db id oid hc, hf] at h
      | some old =>
        have hold := hinv old (findOne_some db oid old hf).1
        unfold Service.updateTask at h
        rw [findById_of_cast db id oid hc, hf] at h
        simp only at h
        cases hs : saveExisting env.saveTime db old
            (Service.assignText (taskData.field "title") old.title)
            (Service.assignText (taskData.field "description") old.description)
            (Service.assignStatus (taskData.field "status") old.status)
            (Service.assignDeadline env.parseDate (taskData.field "deadline") old.deadline)
            (Service.assignFile file old.linkedFile) with
        | error e => simp [hs] at h
        | ok r =>
          obtain ⟨db1, saved⟩ := r
          simp only [hs, Except.ok.injEq, Prod.mk.injEq] at h
          obtain ⟨hdb, -, htt, hdd, -⟩ := saveExisting_ok_inv _ _ _ _ _ _ _ _ _ _ hs
          rw [← h.1, hdb] at ht
          rcases mem_replaceOne db saved t ht with h1 | h1
          · rw [h1]
            refine ⟨meetsSchema_of_valid saved (saveExisting_ok_valid _ _ _ _ _ _ _ _ _ _ hs),
              ?_, ?_⟩
            · rw [htt]
              exact assignText_trimmed _ _ hold.2.1
            · rw [hdd]
              exact assignText_trimmed _ _ hold.2.2
          · exact hinv t h1
  · intro db' out h t ht
    cases hc : castObjectId id with
    | none => simp [Service.markAsDone, findById_of_not_cast db id hc] at h
    | some oid =>
      cases hf : findOne db oid with
      | none => simp [Service.markAsDone, findById_of_cast db id oid hc, hf] at h
      | some old =>
        have hold := hinv old (findOne_some db oid old hf).1
        obtain ⟨new, -, hdb, -, hcase⟩ := markAsDone_ok_inv env db db' id oid old out hc hf h
        rw [hdb] at ht
        rcases mem_replaceOne db new t ht with h1 | h1
        · rw [h1]
          rcases hcase with ⟨-, hn⟩ | ⟨-, hn⟩
          · rw [hn]
            exact hold
          · rw [hn]
            exact ⟨⟨hold.1.1, Or.inr rfl⟩, hold.2.1, hold.2.2⟩
        · exact hinv t h1
  · intro hviol
    have hne : validationErrors ((taskData.field "title").map jsTrim)
        ((taskData.field "description").map jsTrim) "TODO"
        (newDate env.parseDate (taskData.field "deadline")) ≠ [] := by
      intro hnil
      obtain ⟨h1, h2, h3, -⟩ := (validationErrors_eq_nil_iff _ _ _ _).mp hnil
      rcases hviol with hv | hv | hv
      · cases ht : taskData.field "title" with
        | none => simp [ht, titleError] at h2
        | some t =>
          rw [ht] at h2
          exact htitle _ (hv t ht) h2
      · cases hd : taskData.field "description" with
        | none => simp [hd, descriptionError] at h3
        | some d =>
          rw [hd] at h3
          exact hdesc _ (hv d hd) h3
      · rw [hv] at h1
        simp [deadlineError] at h1
    have hsave := saveNew_rejected env.newId env.saveTime db
      (Service.createPayload env taskData file) hne
    have hsvc : Service.createTask env db taskData file = .error (validationError
        (validationErrors ((taskData.field "title").map jsTrim)
          ((taskData.field "description").map jsTrim) "TODO"
          (newDate env.parseDate (taskData.field "deadline")))) := by
      unfold Service.createTask
      rw [hsave]
      rfl
    exact ⟨_, hne, hsvc, rfl, by rw [hsvc]; rfl⟩
  · intro oid old hid hold hviol
    have hne : validationErrors
        (some (Service.assignText (taskData.field "title") old.title))
        (some (Service.assignText (taskData.field "description") old.description))
        (Service.assignStatus (taskData.field "status") old.status)
        (Service.assignDeadline env.parseDate (taskData.field "deadline") old.deadline)
          ≠ [] := by
      intro hnil
      obtain ⟨h1, h2, h3, -⟩ := (validationErrors_eq_nil_iff _ _ _ _).mp hnil
      rcases hviol with ⟨t, ht, htne, hv⟩ | ⟨d, hd, hdne, hv⟩ | ⟨dl, hdl, hdlne, hv⟩
      · rw [ht, assignText_truthy t _ htne] at h2
        exact htitle _ hv h2
      · rw [hd, assignText_truthy d _ hdne] at h3
        exact hdesc _ hv h3
      · rw [hdl] at h1
        simp [Service.assignDeadline, hdlne, hv, deadlineError] at h1
    have hsave := saveExisting_rejected env.saveTime db old _ _ _ _
      (Service.assignFile file old.linkedFile) hne
    have hsvc : Service.updateTask env db id taskData file = .error (validationError
        (validationErrors
          (some (Service.assignText (taskData.field "title") old.title))
          (some (Service.assignText (taskData.field "description") old.description))
          (Service.assignStatus (taskData.field "status") old.status)
          (Service.assignDeadline env.parseDate (taskData.field "deadline")
            old.deadline))) := by
      unfold Service.updateTask
      rw [findById_of_cast db id oid hid, hold]
      simp only [hsave]
    exact ⟨_, hne, hsvc, rfl, by rw [hsvc]; rfl⟩

/-- Witness for C22: an update of the seeded task with a blank title is rejected and the
store stays as it is. -/
theorem store_invariant_witness :
    ∃ errs, errs ≠ [] ∧
      Service.updateTask sampleEnv [sampleTask] "64b7f3a2c9e77a0012345678"
        [("title", "   ")] none = .error (validationError errs) ∧
      (validationError errs).name = "ValidationError" ∧
      storeAfter [sampleTask] (Service.updateTask sampleEnv [sampleTask]
        "64b7f3a2c9e77a0012345678" [("title", "   ")] none) = [sampleTask] :=
  (store_invariant sampleEnv [sampleTask] "64b7f3a2c9e77a0012345678" [("title", "   ")] none
    (by decide)).2.2.2.2 sampleId sampleTask (by decide) (by decide)
    (Or.inl ⟨"   ", rfl, by decide, Or.inl (by decide)⟩)

/-! ## Theorems: immutable fields -/

/-- One call of `updateTask` or `markAsDone`, on whatever id, leaves a stored task stored
under its `_id` with its `createdOn`. -/
theorem mutation_keeps_identity (db : Collection) (oid : ObjectId) (old : Task)
    (call : Mutation) (hold : findOne db oid = some old) :
    ∃ t, findOne (call.run db) oid = some t ∧ t._id = old._id ∧
      t.createdOn = old.createdOn := by
  have hstay : ∃ t, findOne db oid = some t ∧ t._id = old._id ∧ t.createdOn = old.createdOn :=
    ⟨old, hold, rfl, rfl⟩
  have hwrite : ∀ (oid2 : ObjectId) (old2 new : Task), findOne db oid2 = some old2 →
      new._id = old2._id → new.createdOn = old2.createdOn →
      ∃ t, findOne (replaceOne db new) oid = some t ∧ t._id = old._id ∧
        t.createdOn = old.createdOn := by
    intro oid2 old2 new hf2 hid2 hco2
    have hold2 : old2._id = oid2 := (findOne_some db oid2 old2 hf2).2
    by_cases heq : oid2 = oid
    · subst heq
      have : old2 = old := by
        rw [hf2] at hold
        exact Option.some.inj hold
      subst this
      exact ⟨new, findOne_replaceOne_same db oid2 old2 new hf2 (by rw [hid2, hold2]),
        hid2, hco2⟩
    · have hne : new._id ≠ oid := by
        rw [hid2, hold2]
        exact heq
      rw [findOne_replaceOne_other db oid new hne]
      exact hstay
  cases call with
  | update env id taskData file =>
    simp only [Mutation.run]
    cases hr : Service.updateTask env db id taskData file with
    | error e => exact hstay
    | ok r =>
      obtain ⟨db', out⟩ := r
      simp only [storeAfter]
      cases hc : castObjectId id with
      | none => simp [Service.updateTask, findById_of_not_cast db id hc] at hr
      | some oid2 =>
        cases hf : findOne db oid2 with
        | none => simp [Service.updateTask, findById_of_cast db id oid2 hc, hf] at hr
        | some old2 =>
          obtain ⟨new, -, hdb, -, hid2, -, -, -, -, -, hco, -⟩ :=
            updateTask_ok_inv env db db' id oid2 taskData file old2 out hc hf hr
          rw [hdb]
          exact hwrite oid2 old2 new hf hid2 hco
  | markDone env id =>
    simp only [Mutation.run]
    cases hr : Service.markAsDone env db id with
    | error e => exact hstay
    | ok r =>
      obtain ⟨db', out⟩ := r
      simp only [storeAfter]
      cases hc : castObjectId id with
      | none => simp [Service.markAsDone, findById_of_not_cast db id hc] at hr
      | some oid2 =>
        cases hf : findOne db oid2 with
        | none => simp [Service.markAsDone, findById_of_cast db id oid2 hc, hf] at hr
        | some old2 =>
          obtain ⟨new, -, hdb, -, hcase⟩ :=
            markAsDone_ok_inv env db db' id oid2 old2 out hc hf hr
          rw [hdb]
          rcases hcase with ⟨-, hn⟩ | ⟨-, hn⟩
          · exact hwrite oid2 old2 new hf (by rw [hn]) (by rw [hn])
          · exact hwrite oid2 old2 new hf (by rw [hn]) (by rw [hn])

/-- C23: for every stored task and every sequence of `updateTask` and `markAsDone` calls,
with any inputs (bodies that carry `createdOn`, `id` or `_id` fields included), the task
is still stored under its `_id` with its `createdOn` afterwards; for a task created by
`createTask` these are the id generated and the instant read at creation. -/
theorem createdOn_and_id_immutable (calls : List Mutation) (db : Collection) (oid : ObjectId)
    (old : Task) (hold : findOne db oid = some old) :
    (∃ t, findOne (runMutations db calls) oid = some t ∧ t._id = old._id ∧
      t.createdOn = old.createdOn) ∧
    (∀ (env : Env) (db0 : Collection) (taskData : Body) (file : Option UploadedFile)
        (out : JsObject),
      Service.createTask env db0 taskData file = .ok (db, out) →
      (∀ t ∈ db0, t._id ≠ env.newId) → oid = env.newId →
      ∃ t, findOne (runMutations db calls) oid = some t ∧ t._id = env.newId ∧
        t.createdOn = env.now) := by
  have hall : ∀ (calls : List Mutation) (db : Collection) (old : Task),
      findOne db oid = some old →
      ∃ t, findOne (runMutations db calls) oid = some t ∧ t._id = old._id ∧
        t.createdOn = old.createdOn := by
    intro calls
    induction calls with
    | nil =>
      intro db old hold
      exact ⟨old, hold, rfl, rfl⟩
    | cons call rest ih =>
      intro db old hold
      obtain ⟨t1, hf1, hid1, hco1⟩ := mutation_keeps_identity db oid old call hold
      obtain ⟨t2, hf2, hid2, hco2⟩ := ih (call.run db) t1 hf1
      exact ⟨t2, by simpa [runMutations] using hf2, by rw [hid2, hid1], by rw [hco2, hco1]⟩
  refine ⟨hall calls db old hold, ?_⟩
  intro env db0 taskData file out hc hfresh hoid
  subst hoid
  obtain ⟨task, hdb, -, hid, -, hco, -⟩ := createTask_ok_inv env db0 db taskData file out hc
  have hfind : findOne db env.newId = some task := by
    rw [hdb, ← hid]
    exact findOne_append_fresh db0 task (by simpa [hid] using hfresh)
  have : old = task := by
    rw [hfind] at hold
    exact (Option.some.inj hold).symm
  subst this
  obtain ⟨t, hf, hi, hcr⟩ := hall calls db old hfind
  exact ⟨t, hf, by rw [hi, hid], by rw [hcr, hco]⟩

/-- Witness for C23: the seeded task after an update that carries `createdOn` and `_id`
fields followed by mark-as-done. -/
theorem createdOn_and_id_immutable_witness :
    ∃ t, findOne (runMutations [sampleTask, sampleTask2]
        [Mutation.update sampleEnv "64b7f3a2c9e77a0012345678"
           [("title", "Renamed"), ("createdOn", "1999-01-01"), ("_id", "0")] none,
         Mutation.markDone sampleEnv "64b7f3a2c9e77a0012345678"]) sampleId = some t ∧
      t._id = sampleTask._id ∧ t.createdOn = sampleTask.createdOn :=
  (createdOn_and_id_immutable
    [Mutation.update sampleEnv "64b7f3a2c9e77a0012345678"
       [("title", "Renamed"), ("createdOn", "1999-01-01"), ("_id", "0")] none,
     Mutation.markDone sampleEnv "64b7f3a2c9e77a0012345678"]
    [sampleTask, sampleTask2] sampleId sampleTask (by decide)).1

end TaskManager
